import Mathlib

/-!
# Verification of the `turtls` P-256 arithmetic kernel (`src/ecc.py`)

This file gives a shallow embedding of the Python module `src/ecc.py` and
proves the specification claims about it.

Embedding conventions:
* Python integers are `ℤ`.  Python's `%` and `//` agree with `Int.emod` /
  `Int.ediv` for a positive divisor; inside the Euclidean loop, where the
  divisor is an arbitrary loop variable, we use `Int.fdiv` / `Int.fmod`,
  which coincide with Python's floor division and remainder for every sign.
* A failing Python `assert` (and the other runtime exceptions reached by the
  code) is an `Except.error`.  Following the spec's error taxonomy (§7), the
  failed `assert(r == 1)` postcondition in `inverse` — the "inversion of
  zero" signal — is `Err.divisionByZero`, the range preconditions are
  `Err.domainError`, and the two genuine Python type failures reached by the
  code (`Affine(x, y, z)` with three arguments, attribute access on `None`)
  are `Err.typeError` / `Err.attributeError`.
* The point at infinity is Python's `None`: point-level values are
  `Option Affine`.  `Affine.add` is embedded as the underlying two-parameter
  function (as in `Affine.add(p, q)`), whose `self == None` / `rhs == None`
  tests are the `Option` case splits; `Affine.__eq__` is structural equality
  on the coordinates, and an `Affine` never equals `None`.
* The `while` loop of `inverse` is embedded with an explicit fuel parameter;
  `new_r` strictly decreases in absolute value on every iteration, so the
  initial fuel `a.natAbs + 1` always suffices and the embedding computes the
  same result as the unbounded loop.
-/

set_option maxRecDepth 8000

/-- Fuel-indexed modular exponentiation `a ^ n % m`, used only to make the
Lucas primality certificates for the 256-bit modulus kernel-computable. -/
def powModF (m : ℕ) : ℕ → ℕ → ℕ → ℕ
  | 0, _, _ => 1 % m
  | fuel+1, a, n =>
    if n = 0 then 1 % m
    else if n % 2 = 1 then powModF m fuel (a * a % m) (n / 2) * a % m
    else powModF m fuel (a * a % m) (n / 2)

namespace Ecc

/-- `MOD`, the P-256 prime, as a natural number. -/
def Pn : ℕ := 0xffffffff00000001000000000000000000000000ffffffffffffffffffffffff

/-- `MOD: int = 0xffffffff00000001000000000000000000000000ffffffffffffffffffffffff` -/
def MOD : ℤ := 0xffffffff00000001000000000000000000000000ffffffffffffffffffffffff

/-- Runtime failures of the Python code, named after the spec's §7 taxonomy. -/
inductive Err where
  | domainError
  | divisionByZero
  | typeError
  | attributeError
  deriving DecidableEq, Repr

/-- `def sub(a, b)`: no assert (it is commented out in the source). -/
def sub (a b : ℤ) : ℤ :=
  let dif := a - b
  if dif < 0 then dif + MOD else dif

/-- `def mul(a, b)`. -/
def mul (a b : ℤ) : Except Err ℤ :=
  if a < MOD ∧ b < MOD ∧ a ≥ 0 ∧ b ≥ 0 then .ok ((a * b) % MOD)
  else .error .domainError

/-- `def add(a, b)`. -/
def add (a b : ℤ) : Except Err ℤ :=
  if a < MOD ∧ b < MOD ∧ a ≥ 0 ∧ b ≥ 0 then
    let sum := a + b
    .ok (sub sum MOD)
  else .error .domainError

/-- `def neg(a)`. -/
def neg (a : ℤ) : Except Err ℤ :=
  if a < MOD ∧ a ≥ 0 then .ok (sub 0 a) else .error .domainError

/-- `def sqr(a)`. -/
def sqr (a : ℤ) : Except Err ℤ :=
  mul a a

/-- The `while new_r != 0` loop of `inverse`, with fuel.  Python's `//` and
`%` are `Int.fdiv` and `Int.fmod`. -/
def euclidLoop : ℕ → ℤ → ℤ → ℤ → ℤ → ℤ × ℤ
  | 0, t, _, r, _ => (t, r)
  | fuel+1, t, new_t, r, new_r =>
    if new_r = 0 then (t, r)
    else euclidLoop fuel new_t (t - (r.fdiv new_r) * new_t) new_r (r.fmod new_r)

/-- `def inverse(a)`: extended Euclid on `(MOD, a)`; `assert(r == 1)` is the
division-by-zero signal, the two trailing range asserts are domain errors. -/
def inverse (a : ℤ) : Except Err ℤ :=
  let res := euclidLoop (a.natAbs + 1) 0 1 MOD a
  let t := res.1
  let r := res.2
  if r = 1 then
    let t1 := if t < 0 then t + MOD else t
    if t1 > 0 then
      if t1 < MOD then .ok t1 else .error .domainError
    else .error .domainError
  else .error .divisionByZero

/-- `def div(a, b)`. -/
def div (a b : ℤ) : Except Err ℤ :=
  if a < MOD ∧ b < MOD ∧ a ≥ 0 ∧ b ≥ 0 then do
    let ib ← inverse b
    mul a ib
  else .error .domainError

/-- `class Affine`: a coordinate pair; the point at infinity is *not* an
`Affine`, it is the out-of-band `none` of `Option Affine`. -/
structure Affine where
  x : ℤ
  y : ℤ
  deriving DecidableEq, Repr

/-- `class Projective`. -/
structure Projective where
  x : ℤ
  y : ℤ
  z : ℤ
  deriving DecidableEq, Repr

/-- `A = 0xffffffff00000001000000000000000000000000fffffffffffffffffffffffc` -/
def A : ℤ := 0xffffffff00000001000000000000000000000000fffffffffffffffffffffffc

/-- `Affine.neg`: `return Affine(self.x, neg(self.y))`. -/
def Affine.neg (self : Affine) : Except Err Affine := do
  let ny ← Ecc.neg self.y
  return { x := self.x, y := ny }

/-- `Affine.add(self, rhs)` over the `None`-extended point domain.  The
identity tests, the self-negation test, and the chord/tangent dispatch follow
the source line by line; `y_diff`/`x_diff` are bound but unused there, and the
slope is recomputed, exactly as in the source. -/
def Affine.add (self rhs : Option Affine) : Except Err (Option Affine) :=
  match self with
  | none => .ok rhs
  | some s =>
    match rhs with
    | none => .ok self
    | some r => do
      let sneg ← s.neg
      if sneg = r then
        return none
      else if s ≠ r then
        let _y_diff := sub r.y s.y
        let _x_diff := sub r.x s.x
        let slope ← div (sub r.y s.y) (sub r.x s.x)
        let x0 ← sqr slope
        let x1 := sub x0 s.x
        let x2 := sub x1 r.x
        let y0 ← mul slope (sub s.x x2)
        let y1 := sub y0 s.y
        return some { x := x2, y := y1 }
      else
        let slope0 ← mul s.x s.x
        let slope1 ← mul slope0 3
        let slope2 ← Ecc.add slope1 A
        let temp ← mul 2 s.y
        let slope ← div slope2 temp
        let x0 ← sqr slope
        let x1 := sub x0 s.x
        let x2 := sub x1 r.x
        let y0 ← mul slope (sub s.x x2)
        let y1 := sub y0 s.y
        return some { x := x2, y := y1 }

/-- `Affine.double`: `return self.add(self)`. -/
def Affine.double (self : Affine) : Except Err (Option Affine) :=
  Affine.add (some self) (some self)

/-- `Affine.as_projective`: lift with `z = 1`. -/
def Affine.as_projective (self : Affine) : Projective :=
  { x := self.x, y := self.y, z := 1 }

/-- Point-level negation: `p.neg()` where `p` may be the identity `None`.
On `None`, the attribute access `self.x` inside `Affine.neg` raises
`AttributeError`; on a real point it returns `Affine(self.x, neg(self.y))`. -/
def negPoint : Option Affine → Except Err (Option Affine)
  | none => .error .attributeError
  | some s => do
    let n ← s.neg
    return some n

/-- `Projective.neg`: the source builds `Affine(self.x, neg(self.y), self.z)`;
after `neg(self.y)` is evaluated, the three-argument call to the
two-parameter `Affine` constructor raises `TypeError`. -/
def Projective.neg (self : Projective) : Except Err Affine := do
  let _ny ← Ecc.neg self.y
  .error .typeError

/-- `Projective.as_affine`. -/
def Projective.as_affine (self : Projective) : Except Err (Option Affine) :=
  if self.z = 0 then .ok none
  else do
    let inv ← inverse self.z
    let ax ← mul self.x inv
    let ay ← mul self.y inv
    return some { x := ax, y := ay }

/-- `Projective.add(self, rhs)`: the general chord formula, in source order. -/
def Projective.add (self rhs : Projective) : Except Err Projective := do
  let u_1 ← mul rhs.y self.z
  let u_2 ← mul self.y rhs.z
  let v_1 ← mul rhs.x self.z
  let v_2 ← mul self.x rhs.z
  let u := sub u_1 u_2
  let v := sub v_1 v_2
  let v_sqr ← sqr v
  let v_cube ← mul v_sqr v
  let v_sqr_v_2 ← mul v_sqr v_2
  let w ← mul self.z rhs.z
  let u_sqr ← sqr u
  let a0 ← mul u_sqr w
  let a1 := sub a0 v_cube
  let m2 ← mul 2 v_sqr_v_2
  let a2 := sub a1 m2
  let x ← mul v a2
  let y0 := sub v_sqr_v_2 a2
  let y1 ← mul y0 u
  let vc_u2 ← mul v_cube u_2
  let y2 := sub y1 vc_u2
  let z ← mul v_cube w
  return { x := x, y := y2, z := z }

/-- `BASE_POINT` (the secp256r1 generator). -/
def BASE_POINT : Affine :=
  { x := 0x6b17d1f2e12c4247f8bce6e563a440f277037d812deb33a0f4a13945d898c296
    y := 0x4fe342e2fe1a7f9b8ee7eb4a7c0f9e162bce33576b315ececbb6406837bf51f5 }

/-- `K_2` (the doubled generator, a source test vector). -/
def K_2 : Affine :=
  { x := 0x7cf27b188d034f7e8a52380304b51ac3c08969e277f21b35a60b48fc47669978
    y := 0x07775510db8ed040293d9ac69f7430dbba7dade63ce982299e04b79d227873d1 }

/-- `K_3` (the tripled generator, a source test vector). -/
def K_3 : Affine :=
  { x := 0x5ecbe4d1a6330a44c8f7ef951d4bf165e6c6b721efada985fb41661bc6e7fd6c
    y := 0x8734640c4998ff7e374b06ce1a64a2ecd82ab036384fb83d9a79b127a27d5032 }

/-- Modelled from the spec: the secp256r1 curve coefficient `B`.  The source
defines only `MOD`, `A` and the points; the spec (§2) fixes the curve as NIST
P-256 / secp256r1, `y² = x³ + A·x + B (mod p)`, whose standard `B` is this
value.  It is used only to state the "point on the curve" hypothesis. -/
def B : ℤ := 0x5ac635d8aa3a93e7b3ebbd55769886bc651d06b0cc53b0f63bce3c3e27d2604b

/-- A coordinate pair satisfies the curve equation modulo `MOD`. -/
def onCurve (P : Affine) : Prop :=
  P.y ^ 2 % MOD = (P.x ^ 3 + A * P.x + B) % MOD

instance (P : Affine) : Decidable (onCurve P) := by
  unfold onCurve
  infer_instance

/-- Both coordinates of an affine pair are reduced field elements. -/
def inRange (P : Affine) : Prop :=
  0 ≤ P.x ∧ P.x < MOD ∧ 0 ≤ P.y ∧ P.y < MOD

instance (P : Affine) : Decidable (inRange P) := by
  unfold inRange
  infer_instance

/-- All three coordinates of a projective triple are reduced field elements. -/
def inRangeP (P : Projective) : Prop :=
  0 ≤ P.x ∧ P.x < MOD ∧ 0 ≤ P.y ∧ P.y < MOD ∧ 0 ≤ P.z ∧ P.z < MOD

instance (P : Projective) : Decidable (inRangeP P) := by
  unfold inRangeP
  infer_instance

end Ecc

deriving instance DecidableEq for Except

/-! ## Modular exponentiation correctness and primality of the modulus -/

theorem powModF_lt (m : ℕ) (hm : 0 < m) : ∀ fuel a n, powModF m fuel a n < m := by
  intro fuel
  induction fuel with
  | zero => intro a n; simpa [powModF] using Nat.mod_lt _ hm
  | succ f ih =>
    intro a n
    simp only [powModF]
    split
    · exact Nat.mod_lt _ hm
    · split
      · exact Nat.mod_lt _ hm
      · exact ih _ _

theorem powModF_eq (m : ℕ) : ∀ fuel a n, n < 2 ^ fuel → powModF m fuel a n = a ^ n % m := by
  intro fuel
  induction fuel with
  | zero =>
    intro a n hn
    interval_cases n
    simp [powModF]
  | succ f ih =>
    intro a n hn
    simp only [powModF]
    rcases Nat.eq_zero_or_pos n with h0 | h0
    · simp [h0]
    · rw [if_neg (Nat.pos_iff_ne_zero.mp h0)]
      have hD : n / 2 < 2 ^ f := by
        have : 2 ^ (f + 1) = 2 * 2 ^ f := by ring
        omega
      have hrec := ih (a * a % m) (n / 2) hD
      have hpow : (a * a % m) ^ (n / 2) % m = (a * a) ^ (n / 2) % m := by
        conv_rhs => rw [Nat.pow_mod]
      have hsq : (a * a) ^ (n / 2) = a ^ (2 * (n / 2)) := by
        rw [pow_mul]; ring_nf
      rcases Nat.even_or_odd n with he | ho
      · have h2 : n % 2 = 0 := Nat.even_iff.mp he
        rw [if_neg (by omega), hrec, hpow, hsq]
        congr 2
        omega
      · have h2 : n % 2 = 1 := Nat.odd_iff.mp ho
        rw [if_pos h2, hrec, hpow, hsq, Nat.mod_mul_mod, ← pow_succ]
        congr 2
        omega

theorem zmod_pow_cast (N fuel g n : ℕ) (hn : n < 2 ^ fuel) :
    ((g : ℕ) : ZMod N) ^ n = ((powModF N fuel g n : ℕ) : ZMod N) := by
  rw [powModF_eq N fuel g n hn, ZMod.natCast_mod, Nat.cast_pow]

theorem zmod_pow_eq_one (N fuel g n : ℕ) (hn : n < 2 ^ fuel)
    (h : powModF N fuel g n = 1) : ((g : ℕ) : ZMod N) ^ n = 1 := by
  rw [zmod_pow_cast N fuel g n hn, h, Nat.cast_one]

theorem zmod_pow_ne_one (N fuel g n : ℕ) (hN : 2 < N) (hn : n < 2 ^ fuel)
    (h : powModF N fuel g n ≠ 1) : ((g : ℕ) : ZMod N) ^ n ≠ 1 := by
  rw [zmod_pow_cast N fuel g n hn]
  intro hcon
  apply h
  rw [show (1 : ZMod N) = ((1 : ℕ) : ZMod N) by rw [Nat.cast_one]] at hcon
  have hmeq := (ZMod.natCast_eq_natCast_iff _ _ _).mp hcon
  have hlt : powModF N fuel g n < N := powModF_lt N (by omega) fuel g n
  unfold Nat.ModEq at hmeq
  rw [Nat.mod_eq_of_lt hlt, Nat.mod_eq_of_lt (by omega)] at hmeq
  exact hmeq

/-- Lucas primality certificate for 204061199 with witness 11. -/
theorem prime_s1 : Nat.Prime 204061199 := by
  have hfac : (204061199 - 1 : ℕ) = 2 * (11 * (23 * (107 * (3769)))) := by norm_num
  refine lucas_primality _ ((11 : ℕ) : ZMod 204061199) ?_ ?_
  · exact zmod_pow_eq_one 204061199 256 11 (204061199 - 1) (by norm_num) (by decide)
  · intro q hq hdvd
    rw [hfac] at hdvd
    rcases (Nat.Prime.dvd_mul hq).mp hdvd with h | hdvd
    · have hqe := (Nat.prime_dvd_prime_iff_eq hq (by norm_num)).mp h
      subst hqe
      exact zmod_pow_ne_one 204061199 256 11 ((204061199 - 1) / 2) (by norm_num) (by norm_num) (by decide)
    rcases (Nat.Prime.dvd_mul hq).mp hdvd with h | hdvd
    · have hqe := (Nat.prime_dvd_prime_iff_eq hq (by norm_num)).mp h
      subst hqe
      exact zmod_pow_ne_one 204061199 256 11 ((204061199 - 1) / 11) (by norm_num) (by norm_num) (by decide)
    rcases (Nat.Prime.dvd_mul hq).mp hdvd with h | hdvd
    · have hqe := (Nat.prime_dvd_prime_iff_eq hq (by norm_num)).mp h
      subst hqe
      exact zmod_pow_ne_one 204061199 256 11 ((204061199 - 1) / 23) (by norm_num) (by norm_num) (by decide)
    rcases (Nat.Prime.dvd_mul hq).mp hdvd with h | hdvd
    · have hqe := (Nat.prime_dvd_prime_iff_eq hq (by norm_num)).mp h
      subst hqe
      exact zmod_pow_ne_one 204061199 256 11 ((204061199 - 1) / 107) (by norm_num) (by norm_num) (by decide)
    have h := hdvd
    have hqe := (Nat.prime_dvd_prime_iff_eq hq (by norm_num)).mp h
    subst hqe
    exact zmod_pow_ne_one 204061199 256 11 ((204061199 - 1) / 3769) (by norm_num) (by norm_num) (by decide)

/-- Lucas primality certificate for 34282281433 with witness 17. -/
theorem prime_r1 : Nat.Prime 34282281433 := by
  have hfac : (34282281433 - 1 : ℕ) = 2 ^ 3 * (3 * (7 * (204061199))) := by norm_num
  refine lucas_primality _ ((17 : ℕ) : ZMod 34282281433) ?_ ?_
  · exact zmod_pow_eq_one 34282281433 256 17 (34282281433 - 1) (by norm_num) (by decide)
  · intro q hq hdvd
    rw [hfac] at hdvd
    rcases (Nat.Prime.dvd_mul hq).mp hdvd with h | hdvd
    · have hd2 : q ∣ 2 := hq.dvd_of_dvd_pow h
      have hqe := (Nat.prime_dvd_prime_iff_eq hq (by norm_num)).mp hd2
      subst hqe
      exact zmod_pow_ne_one 34282281433 256 17 ((34282281433 - 1) / 2) (by norm_num) (by norm_num) (by decide)
    rcases (Nat.Prime.dvd_mul hq).mp hdvd with h | hdvd
    · have hqe := (Nat.prime_dvd_prime_iff_eq hq (by norm_num)).mp h
      subst hqe
      exact zmod_pow_ne_one 34282281433 256 17 ((34282281433 - 1) / 3) (by norm_num) (by norm_num) (by decide)
    rcases (Nat.Prime.dvd_mul hq).mp hdvd with h | hdvd
    · have hqe := (Nat.prime_dvd_prime_iff_eq hq (by norm_num)).mp h
      subst hqe
      exact zmod_pow_ne_one 34282281433 256 17 ((34282281433 - 1) / 7) (by norm_num) (by norm_num) (by decide)
    have h := hdvd
    have hqe := (Nat.prime_dvd_prime_iff_eq hq prime_s1).mp h
    subst hqe
    exact zmod_pow_ne_one 34282281433 256 17 ((34282281433 - 1) / 204061199) (by norm_num) (by norm_num) (by decide)

/-- Lucas primality certificate for 66417393611 with witness 6. -/
theorem prime_s2 : Nat.Prime 66417393611 := by
  have hfac : (66417393611 - 1 : ℕ) = 2 * (5 * (53 * (173 * (197 * (3677))))) := by norm_num
  refine lucas_primality _ ((6 : ℕ) : ZMod 66417393611) ?_ ?_
  · exact zmod_pow_eq_one 66417393611 256 6 (66417393611 - 1) (by norm_num) (by decide)
  · intro q hq hdvd
    rw [hfac] at hdvd
    rcases (Nat.Prime.dvd_mul hq).mp hdvd with h | hdvd
    · have hqe := (Nat.prime_dvd_prime_iff_eq hq (by norm_num)).mp h
      subst hqe
      exact zmod_pow_ne_one 66417393611 256 6 ((66417393611 - 1) / 2) (by norm_num) (by norm_num) (by decide)
    rcases (Nat.Prime.dvd_mul hq).mp hdvd with h | hdvd
    · have hqe := (Nat.prime_dvd_prime_iff_eq hq (by norm_num)).mp h
      subst hqe
      exact zmod_pow_ne_one 66417393611 256 6 ((66417393611 - 1) / 5) (by norm_num) (by norm_num) (by decide)
    rcases (Nat.Prime.dvd_mul hq).mp hdvd with h | hdvd
    · have hqe := (Nat.prime_dvd_prime_iff_eq hq (by norm_num)).mp h
      subst hqe
      exact zmod_pow_ne_one 66417393611 256 6 ((66417393611 - 1) / 53) (by norm_num) (by norm_num) (by decide)
    rcases (Nat.Prime.dvd_mul hq).mp hdvd with h | hdvd
    · have hqe := (Nat.prime_dvd_prime_iff_eq hq (by norm_num)).mp h
      subst hqe
      exact zmod_pow_ne_one 66417393611 256 6 ((66417393611 - 1) / 173) (by norm_num) (by norm_num) (by decide)
    rcases (Nat.Prime.dvd_mul hq).mp hdvd with h | hdvd
    · have hqe := (Nat.prime_dvd_prime_iff_eq hq (by norm_num)).mp h
      subst hqe
      exact zmod_pow_ne_one 66417393611 256 6 ((66417393611 - 1) / 197) (by norm_num) (by norm_num) (by decide)
    have h := hdvd
    have hqe := (Nat.prime_dvd_prime_iff_eq hq (by norm_num)).mp h
    subst hqe
    exact zmod_pow_ne_one 66417393611 256 6 ((66417393611 - 1) / 3677) (by norm_num) (by norm_num) (by decide)

/-- Lucas primality certificate for 11290956913871 with witness 13. -/
theorem prime_r2 : Nat.Prime 11290956913871 := by
  have hfac : (11290956913871 - 1 : ℕ) = 2 * (5 * (17 * (66417393611))) := by norm_num
  refine lucas_primality _ ((13 : ℕ) : ZMod 11290956913871) ?_ ?_
  · exact zmod_pow_eq_one 11290956913871 256 13 (11290956913871 - 1) (by norm_num) (by decide)
  · intro q hq hdvd
    rw [hfac] at hdvd
    rcases (Nat.Prime.dvd_mul hq).mp hdvd with h | hdvd
    · have hqe := (Nat.prime_dvd_prime_iff_eq hq (by norm_num)).mp h
      subst hqe
      exact zmod_pow_ne_one 11290956913871 256 13 ((11290956913871 - 1) / 2) (by norm_num) (by norm_num) (by decide)
    rcases (Nat.Prime.dvd_mul hq).mp hdvd with h | hdvd
    · have hqe := (Nat.prime_dvd_prime_iff_eq hq (by norm_num)).mp h
      subst hqe
      exact zmod_pow_ne_one 11290956913871 256 13 ((11290956913871 - 1) / 5) (by norm_num) (by norm_num) (by decide)
    rcases (Nat.Prime.dvd_mul hq).mp hdvd with h | hdvd
    · have hqe := (Nat.prime_dvd_prime_iff_eq hq (by norm_num)).mp h
      subst hqe
      exact zmod_pow_ne_one 11290956913871 256 13 ((11290956913871 - 1) / 17) (by norm_num) (by norm_num) (by decide)
    have h := hdvd
    have hqe := (Nat.prime_dvd_prime_iff_eq hq prime_s2).mp h
    subst hqe
    exact zmod_pow_ne_one 11290956913871 256 13 ((11290956913871 - 1) / 66417393611) (by norm_num) (by norm_num) (by decide)

/-- Lucas primality certificate for 46076956964474543 with witness 5. -/
theorem prime_r3 : Nat.Prime 46076956964474543 := by
  have hfac : (46076956964474543 - 1 : ℕ) = 2 * (23 * (18169 * (78283 * (704251)))) := by norm_num
  refine lucas_primality _ ((5 : ℕ) : ZMod 46076956964474543) ?_ ?_
  · exact zmod_pow_eq_one 46076956964474543 256 5 (46076956964474543 - 1) (by norm_num) (by decide)
  · intro q hq hdvd
    rw [hfac] at hdvd
    rcases (Nat.Prime.dvd_mul hq).mp hdvd with h | hdvd
    · have hqe := (Nat.prime_dvd_prime_iff_eq hq (by norm_num)).mp h
      subst hqe
      exact zmod_pow_ne_one 46076956964474543 256 5 ((46076956964474543 - 1) / 2) (by norm_num) (by norm_num) (by decide)
    rcases (Nat.Prime.dvd_mul hq).mp hdvd with h | hdvd
    · have hqe := (Nat.prime_dvd_prime_iff_eq hq (by norm_num)).mp h
      subst hqe
      exact zmod_pow_ne_one 46076956964474543 256 5 ((46076956964474543 - 1) / 23) (by norm_num) (by norm_num) (by decide)
    rcases (Nat.Prime.dvd_mul hq).mp hdvd with h | hdvd
    · have hqe := (Nat.prime_dvd_prime_iff_eq hq (by norm_num)).mp h
      subst hqe
      exact zmod_pow_ne_one 46076956964474543 256 5 ((46076956964474543 - 1) / 18169) (by norm_num) (by norm_num) (by decide)
    rcases (Nat.Prime.dvd_mul hq).mp hdvd with h | hdvd
    · have hqe := (Nat.prime_dvd_prime_iff_eq hq (by norm_num)).mp h
      subst hqe
      exact zmod_pow_ne_one 46076956964474543 256 5 ((46076956964474543 - 1) / 78283) (by norm_num) (by norm_num) (by decide)
    have h := hdvd
    have hqe := (Nat.prime_dvd_prime_iff_eq hq (by norm_num)).mp h
    subst hqe
    exact zmod_pow_ne_one 46076956964474543 256 5 ((46076956964474543 - 1) / 704251) (by norm_num) (by norm_num) (by decide)

/-- Lucas primality certificate for 774023187263532362759620327192479577272145303 with witness 3. -/
theorem prime_q1 : Nat.Prime 774023187263532362759620327192479577272145303 := by
  have hfac : (774023187263532362759620327192479577272145303 - 1 : ℕ) = 2 * (3 ^ 2 * (2411 * (34282281433 * (11290956913871 * (46076956964474543))))) := by norm_num
  refine lucas_primality _ ((3 : ℕ) : ZMod 774023187263532362759620327192479577272145303) ?_ ?_
  · exact zmod_pow_eq_one 774023187263532362759620327192479577272145303 256 3 (774023187263532362759620327192479577272145303 - 1) (by norm_num) (by decide)
  · intro q hq hdvd
    rw [hfac] at hdvd
    rcases (Nat.Prime.dvd_mul hq).mp hdvd with h | hdvd
    · have hqe := (Nat.prime_dvd_prime_iff_eq hq (by norm_num)).mp h
      subst hqe
      exact zmod_pow_ne_one 774023187263532362759620327192479577272145303 256 3 ((774023187263532362759620327192479577272145303 - 1) / 2) (by norm_num) (by norm_num) (by decide)
    rcases (Nat.Prime.dvd_mul hq).mp hdvd with h | hdvd
    · have hd2 : q ∣ 3 := hq.dvd_of_dvd_pow h
      have hqe := (Nat.prime_dvd_prime_iff_eq hq (by norm_num)).mp hd2
      subst hqe
      exact zmod_pow_ne_one 774023187263532362759620327192479577272145303 256 3 ((774023187263532362759620327192479577272145303 - 1) / 3) (by norm_num) (by norm_num) (by decide)
    rcases (Nat.Prime.dvd_mul hq).mp hdvd with h | hdvd
    · have hqe := (Nat.prime_dvd_prime_iff_eq hq (by norm_num)).mp h
      subst hqe
      exact zmod_pow_ne_one 774023187263532362759620327192479577272145303 256 3 ((774023187263532362759620327192479577272145303 - 1) / 2411) (by norm_num) (by norm_num) (by decide)
    rcases (Nat.Prime.dvd_mul hq).mp hdvd with h | hdvd
    · have hqe := (Nat.prime_dvd_prime_iff_eq hq prime_r1).mp h
      subst hqe
      exact zmod_pow_ne_one 774023187263532362759620327192479577272145303 256 3 ((774023187263532362759620327192479577272145303 - 1) / 34282281433) (by norm_num) (by norm_num) (by decide)
    rcases (Nat.Prime.dvd_mul hq).mp hdvd with h | hdvd
    · have hqe := (Nat.prime_dvd_prime_iff_eq hq prime_r2).mp h
      subst hqe
      exact zmod_pow_ne_one 774023187263532362759620327192479577272145303 256 3 ((774023187263532362759620327192479577272145303 - 1) / 11290956913871) (by norm_num) (by norm_num) (by decide)
    have h := hdvd
    have hqe := (Nat.prime_dvd_prime_iff_eq hq prime_r3).mp h
    subst hqe
    exact zmod_pow_ne_one 774023187263532362759620327192479577272145303 256 3 ((774023187263532362759620327192479577272145303 - 1) / 46076956964474543) (by norm_num) (by norm_num) (by decide)

/-- Lucas primality certificate for 835945042244614951780389953367877943453916927241 with witness 11. -/
theorem prime_q : Nat.Prime 835945042244614951780389953367877943453916927241 := by
  have hfac : (835945042244614951780389953367877943453916927241 - 1 : ℕ) = 2 ^ 3 * (3 ^ 3 * (5 * (774023187263532362759620327192479577272145303))) := by norm_num
  refine lucas_primality _ ((11 : ℕ) : ZMod 835945042244614951780389953367877943453916927241) ?_ ?_
  · exact zmod_pow_eq_one 835945042244614951780389953367877943453916927241 256 11 (835945042244614951780389953367877943453916927241 - 1) (by norm_num) (by decide)
  · intro q hq hdvd
    rw [hfac] at hdvd
    rcases (Nat.Prime.dvd_mul hq).mp hdvd with h | hdvd
    · have hd2 : q ∣ 2 := hq.dvd_of_dvd_pow h
      have hqe := (Nat.prime_dvd_prime_iff_eq hq (by norm_num)).mp hd2
      subst hqe
      exact zmod_pow_ne_one 835945042244614951780389953367877943453916927241 256 11 ((835945042244614951780389953367877943453916927241 - 1) / 2) (by norm_num) (by norm_num) (by decide)
    rcases (Nat.Prime.dvd_mul hq).mp hdvd with h | hdvd
    · have hd2 : q ∣ 3 := hq.dvd_of_dvd_pow h
      have hqe := (Nat.prime_dvd_prime_iff_eq hq (by norm_num)).mp hd2
      subst hqe
      exact zmod_pow_ne_one 835945042244614951780389953367877943453916927241 256 11 ((835945042244614951780389953367877943453916927241 - 1) / 3) (by norm_num) (by norm_num) (by decide)
    rcases (Nat.Prime.dvd_mul hq).mp hdvd with h | hdvd
    · have hqe := (Nat.prime_dvd_prime_iff_eq hq (by norm_num)).mp h
      subst hqe
      exact zmod_pow_ne_one 835945042244614951780389953367877943453916927241 256 11 ((835945042244614951780389953367877943453916927241 - 1) / 5) (by norm_num) (by norm_num) (by decide)
    have h := hdvd
    have hqe := (Nat.prime_dvd_prime_iff_eq hq prime_q1).mp h
    subst hqe
    exact zmod_pow_ne_one 835945042244614951780389953367877943453916927241 256 11 ((835945042244614951780389953367877943453916927241 - 1) / 774023187263532362759620327192479577272145303) (by norm_num) (by norm_num) (by decide)

/-- Lucas primality certificate for 115792089210356248762697446949407573530086143415290314195533631308867097853951 with witness 6. -/
theorem Pnat_prime_val : Nat.Prime 115792089210356248762697446949407573530086143415290314195533631308867097853951 := by
  have hfac : (115792089210356248762697446949407573530086143415290314195533631308867097853951 - 1 : ℕ) = 2 * (3 * (5 ^ 2 * (17 * (257 * (641 * (1531 * (65537 * (490463 * (6700417 * (835945042244614951780389953367877943453916927241)))))))))) := by norm_num
  refine lucas_primality _ ((6 : ℕ) : ZMod 115792089210356248762697446949407573530086143415290314195533631308867097853951) ?_ ?_
  · exact zmod_pow_eq_one 115792089210356248762697446949407573530086143415290314195533631308867097853951 256 6 (115792089210356248762697446949407573530086143415290314195533631308867097853951 - 1) (by norm_num) (by decide)
  · intro q hq hdvd
    rw [hfac] at hdvd
    rcases (Nat.Prime.dvd_mul hq).mp hdvd with h | hdvd
    · have hqe := (Nat.prime_dvd_prime_iff_eq hq (by norm_num)).mp h
      subst hqe
      exact zmod_pow_ne_one 115792089210356248762697446949407573530086143415290314195533631308867097853951 256 6 ((115792089210356248762697446949407573530086143415290314195533631308867097853951 - 1) / 2) (by norm_num) (by norm_num) (by decide)
    rcases (Nat.Prime.dvd_mul hq).mp hdvd with h | hdvd
    · have hqe := (Nat.prime_dvd_prime_iff_eq hq (by norm_num)).mp h
      subst hqe
      exact zmod_pow_ne_one 115792089210356248762697446949407573530086143415290314195533631308867097853951 256 6 ((115792089210356248762697446949407573530086143415290314195533631308867097853951 - 1) / 3) (by norm_num) (by norm_num) (by decide)
    rcases (Nat.Prime.dvd_mul hq).mp hdvd with h | hdvd
    · have hd2 : q ∣ 5 := hq.dvd_of_dvd_pow h
      have hqe := (Nat.prime_dvd_prime_iff_eq hq (by norm_num)).mp hd2
      subst hqe
      exact zmod_pow_ne_one 115792089210356248762697446949407573530086143415290314195533631308867097853951 256 6 ((115792089210356248762697446949407573530086143415290314195533631308867097853951 - 1) / 5) (by norm_num) (by norm_num) (by decide)
    rcases (Nat.Prime.dvd_mul hq).mp hdvd with h | hdvd
    · have hqe := (Nat.prime_dvd_prime_iff_eq hq (by norm_num)).mp h
      subst hqe
      exact zmod_pow_ne_one 115792089210356248762697446949407573530086143415290314195533631308867097853951 256 6 ((115792089210356248762697446949407573530086143415290314195533631308867097853951 - 1) / 17) (by norm_num) (by norm_num) (by decide)
    rcases (Nat.Prime.dvd_mul hq).mp hdvd with h | hdvd
    · have hqe := (Nat.prime_dvd_prime_iff_eq hq (by norm_num)).mp h
      subst hqe
      exact zmod_pow_ne_one 115792089210356248762697446949407573530086143415290314195533631308867097853951 256 6 ((115792089210356248762697446949407573530086143415290314195533631308867097853951 - 1) / 257) (by norm_num) (by norm_num) (by decide)
    rcases (Nat.Prime.dvd_mul hq).mp hdvd with h | hdvd
    · have hqe := (Nat.prime_dvd_prime_iff_eq hq (by norm_num)).mp h
      subst hqe
      exact zmod_pow_ne_one 115792089210356248762697446949407573530086143415290314195533631308867097853951 256 6 ((115792089210356248762697446949407573530086143415290314195533631308867097853951 - 1) / 641) (by norm_num) (by norm_num) (by decide)
    rcases (Nat.Prime.dvd_mul hq).mp hdvd with h | hdvd
    · have hqe := (Nat.prime_dvd_prime_iff_eq hq (by norm_num)).mp h
      subst hqe
      exact zmod_pow_ne_one 115792089210356248762697446949407573530086143415290314195533631308867097853951 256 6 ((115792089210356248762697446949407573530086143415290314195533631308867097853951 - 1) / 1531) (by norm_num) (by norm_num) (by decide)
    rcases (Nat.Prime.dvd_mul hq).mp hdvd with h | hdvd
    · have hqe := (Nat.prime_dvd_prime_iff_eq hq (by norm_num)).mp h
      subst hqe
      exact zmod_pow_ne_one 115792089210356248762697446949407573530086143415290314195533631308867097853951 256 6 ((115792089210356248762697446949407573530086143415290314195533631308867097853951 - 1) / 65537) (by norm_num) (by norm_num) (by decide)
    rcases (Nat.Prime.dvd_mul hq).mp hdvd with h | hdvd
    · have hqe := (Nat.prime_dvd_prime_iff_eq hq (by norm_num)).mp h
      subst hqe
      exact zmod_pow_ne_one 115792089210356248762697446949407573530086143415290314195533631308867097853951 256 6 ((115792089210356248762697446949407573530086143415290314195533631308867097853951 - 1) / 490463) (by norm_num) (by norm_num) (by decide)
    rcases (Nat.Prime.dvd_mul hq).mp hdvd with h | hdvd
    · have hqe := (Nat.prime_dvd_prime_iff_eq hq (by norm_num)).mp h
      subst hqe
      exact zmod_pow_ne_one 115792089210356248762697446949407573530086143415290314195533631308867097853951 256 6 ((115792089210356248762697446949407573530086143415290314195533631308867097853951 - 1) / 6700417) (by norm_num) (by norm_num) (by decide)
    have h := hdvd
    have hqe := (Nat.prime_dvd_prime_iff_eq hq prime_q).mp h
    subst hqe
    exact zmod_pow_ne_one 115792089210356248762697446949407573530086143415290314195533631308867097853951 256 6 ((115792089210356248762697446949407573530086143415290314195533631308867097853951 - 1) / 835945042244614951780389953367877943453916927241) (by norm_num) (by norm_num) (by decide)

namespace Ecc

theorem Pn_prime : Nat.Prime Pn := Pnat_prime_val

instance : Fact (Nat.Prime Pn) := ⟨Pn_prime⟩

theorem MOD_eq_Pn : MOD = (Pn : ℤ) := by norm_num [Ecc.MOD, Ecc.Pn]

theorem MOD_pos : (0 : ℤ) < MOD := by norm_num [Ecc.MOD]

theorem MOD_gt_one : (1 : ℤ) < MOD := by norm_num [Ecc.MOD]

end Ecc

namespace Ecc

/-! ## Evaluation and range lemmas for the field operations -/

theorem bind_ok {α β : Type} (a : α) (f : α → Except Err β) :
    (Except.ok a >>= f) = f a := rfl

theorem bind_err {α β : Type} (e : Err) (f : α → Except Err β) :
    ((Except.error e : Except Err α) >>= f) = Except.error e := rfl

theorem emod_range (a : ℤ) : 0 ≤ a % MOD ∧ a % MOD < MOD :=
  ⟨Int.emod_nonneg a (by norm_num [Ecc.MOD]), Int.emod_lt_of_pos a MOD_pos⟩

theorem sub_range (a b : ℤ) (h1 : 0 ≤ a) (h2 : a < MOD) (h3 : 0 ≤ b) (h4 : b < MOD) :
    0 ≤ sub a b ∧ sub a b < MOD := by
  have hM := MOD_pos
  simp only [sub]
  split <;> omega

theorem sub_emod (a b : ℤ) (h1 : 0 ≤ a) (h2 : a < MOD) (h3 : 0 ≤ b) (h4 : b < MOD) :
    sub a b = (a - b) % MOD := by
  simp only [sub, MOD] at *
  split <;> omega

theorem sub_self_eq (a : ℤ) : sub a a = 0 := by
  simp [sub]

theorem mul_ok (a b : ℤ) (h1 : 0 ≤ a) (h2 : a < MOD) (h3 : 0 ≤ b) (h4 : b < MOD) :
    mul a b = .ok ((a * b) % MOD) := by
  unfold mul
  rw [if_pos ⟨h2, h4, h1, h3⟩]

theorem sqr_ok (a : ℤ) (h1 : 0 ≤ a) (h2 : a < MOD) :
    sqr a = .ok ((a * a) % MOD) := by
  unfold sqr
  exact mul_ok a a h1 h2 h1 h2

theorem add_ok (a b : ℤ) (h1 : 0 ≤ a) (h2 : a < MOD) (h3 : 0 ≤ b) (h4 : b < MOD) :
    add a b = .ok ((a + b) % MOD) := by
  have hs : sub (a + b) MOD = (a + b) % MOD := by
    simp only [sub, MOD] at *
    split <;> omega
  unfold add
  rw [if_pos ⟨h2, h4, h1, h3⟩]
  simp only [hs]

theorem neg_ok (a : ℤ) (h1 : 0 ≤ a) (h2 : a < MOD) :
    neg a = .ok ((-a) % MOD) := by
  have hs : sub 0 a = (-a) % MOD := by
    simp only [sub, MOD] at *
    split <;> omega
  unfold neg
  rw [if_pos ⟨h2, h1⟩, hs]

/-! ## Casting the integer operations into `ZMod Pn` -/

theorem cast_MOD : ((MOD : ℤ) : ZMod Pn) = 0 := by
  rw [Ecc.MOD_eq_Pn]
  exact_mod_cast ZMod.natCast_self Pn

theorem cast_emod (a : ℤ) : ((a % MOD : ℤ) : ZMod Pn) = (a : ZMod Pn) := by
  conv_lhs => rw [Int.emod_def]
  push_cast
  rw [cast_MOD]
  ring

theorem cast_sub (a b : ℤ) :
    ((sub a b : ℤ) : ZMod Pn) = (a : ZMod Pn) - (b : ZMod Pn) := by
  simp only [sub]
  split
  · push_cast
    rw [cast_MOD]
    ring
  · push_cast
    ring

theorem cast_inj (a b : ℤ) (h1 : 0 ≤ a) (h2 : a < MOD) (h3 : 0 ≤ b) (h4 : b < MOD)
    (h : (a : ZMod Pn) = (b : ZMod Pn)) : a = b := by
  have hmeq := (ZMod.intCast_eq_intCast_iff a b Pn).mp h
  unfold Int.ModEq at hmeq
  rw [← MOD_eq_Pn] at hmeq
  rw [Int.emod_eq_of_lt h1 h2, Int.emod_eq_of_lt h3 h4] at hmeq
  exact hmeq

theorem cast_ne_zero (a : ℤ) (h1 : 0 < a) (h2 : a < MOD) : (a : ZMod Pn) ≠ 0 := by
  intro h
  have hdvd : ((Pn : ℤ)) ∣ a := (ZMod.intCast_zmod_eq_zero_iff_dvd a Pn).mp h
  have := Int.le_of_dvd h1 hdvd
  rw [← MOD_eq_Pn] at this
  omega

/-! ## Correctness of the extended Euclidean loop -/

theorem natAbs_sub_eq (t m : ℤ) (h : t * m ≤ 0) :
    (t - m).natAbs = t.natAbs + m.natAbs := by
  rcases le_or_lt t 0 with ht | ht <;> rcases le_or_lt m 0 with hm | hm
  · have hprod : 0 ≤ t * m := by
      have hx : 0 ≤ (-t) * (-m) := mul_nonneg (by omega) (by omega)
      rw [neg_mul_neg] at hx
      exact hx
    have : t * m = 0 := le_antisymm h hprod
    rcases mul_eq_zero.mp this with h0 | h0 <;> omega
  · omega
  · omega
  · exact absurd (mul_pos ht hm) (not_lt.mpr h)

theorem euclidLoop_spec (a : ℤ) :
    ∀ (fuel : ℕ) (t nt r nr : ℤ),
      MOD ∣ (t * a - r) →
      MOD ∣ (nt * a - nr) →
      (t * nr - nt * r = MOD ∨ t * nr - nt * r = -MOD) →
      t * nt ≤ 0 →
      t.natAbs ≤ nt.natAbs →
      0 ≤ nr → nr < r →
      nr.toNat < fuel →
      ∃ tf ntf rf : ℤ, euclidLoop fuel t nt r nr = (tf, rf) ∧
        0 < rf ∧
        MOD ∣ (tf * a - rf) ∧
        MOD ∣ (ntf * a) ∧
        rf.natAbs * ntf.natAbs = Pn ∧
        tf.natAbs ≤ ntf.natAbs := by
  intro fuel
  induction fuel with
  | zero => intro t nt r nr _ _ _ _ _ h6 _ h8; omega
  | succ f ih =>
    intro t nt r nr h1 h2 h3 h4 h5 h6 h7 h8
    by_cases hnr : nr = 0
    · subst hnr
      refine ⟨t, nt, r, ?_, by omega, h1, by simpa using h2, ?_, h5⟩
      · unfold euclidLoop
        rw [if_pos rfl]
      · have hD : nt * r = MOD ∨ nt * r = -MOD := by
          rcases h3 with h | h
          · right; linarith
          · left; linarith
        have habs : (nt * r).natAbs = MOD.natAbs := by
          rcases hD with h | h <;> simp [h]
        rw [Int.natAbs_mul] at habs
        have hPn : MOD.natAbs = Pn := by
          rw [Ecc.MOD_eq_Pn]
          exact Int.natAbs_ofNat Pn
        rw [hPn] at habs
        rw [← habs]
        ring
    · have hnrpos : 0 < nr := lt_of_le_of_ne h6 (Ne.symm hnr)
      have hstep : euclidLoop (f + 1) t nt r nr
          = euclidLoop f nt (t - (r / nr) * nt) nr (r % nr) := by
        conv_lhs => rw [euclidLoop]
        rw [if_neg hnr, Int.fdiv_eq_ediv _ (le_of_lt hnrpos),
          Int.fmod_eq_emod _ (le_of_lt hnrpos)]
      have hq0 : 0 ≤ r / nr := Int.ediv_nonneg (by omega) (le_of_lt hnrpos)
      have hq1 : 1 ≤ r / nr := by
        rw [Int.le_ediv_iff_mul_le hnrpos]
        omega
      have hmod : r % nr = r - nr * (r / nr) := Int.emod_def r nr
      have h1' : MOD ∣ (nt * a - nr) := h2
      have h2' : MOD ∣ ((t - (r / nr) * nt) * a - r % nr) := by
        rw [hmod]
        have hd := dvd_sub h1 (h2.mul_left (r / nr))
        have hexp : t * a - r - r / nr * (nt * a - nr)
            = (t - r / nr * nt) * a - (r - nr * (r / nr)) := by ring
        rw [hexp] at hd
        exact hd
      have h3' : nt * (r % nr) - (t - (r / nr) * nt) * nr = MOD ∨
          nt * (r % nr) - (t - (r / nr) * nt) * nr = -MOD := by
        have hexp : nt * (r % nr) - (t - (r / nr) * nt) * nr
            = -(t * nr - nt * r) := by
          rw [hmod]; ring
        rw [hexp]
        rcases h3 with h | h
        · right; rw [h]
        · left; rw [h]; ring
      have h4' : nt * (t - (r / nr) * nt) ≤ 0 := by
        have hsq : 0 ≤ (r / nr) * (nt * nt) := mul_nonneg hq0 (mul_self_nonneg nt)
        have hexp : nt * (t - (r / nr) * nt) = t * nt - (r / nr) * (nt * nt) := by ring
        rw [hexp]
        linarith
      have h5' : nt.natAbs ≤ (t - (r / nr) * nt).natAbs := by
        have hsign : t * ((r / nr) * nt) ≤ 0 := by
          have hexp : t * ((r / nr) * nt) = (r / nr) * (t * nt) := by ring
          rw [hexp]
          exact mul_nonpos_of_nonneg_of_nonpos hq0 h4
        rw [natAbs_sub_eq t ((r / nr) * nt) hsign, Int.natAbs_mul]
        have hqp : 0 < (r / nr).natAbs := by omega
        have := Nat.le_mul_of_pos_left nt.natAbs hqp
        omega
      have h6' : 0 ≤ r % nr := Int.emod_nonneg r (ne_of_gt hnrpos)
      have h7' : r % nr < nr := Int.emod_lt_of_pos r hnrpos
      have h8' : (r % nr).toNat < f := by omega
      obtain ⟨tf, ntf, rf, heq, hrest⟩ :=
        ih nt (t - (r / nr) * nt) nr (r % nr) h1' h2' h3' h4' h5' h6' h7' h8'
      exact ⟨tf, ntf, rf, by rw [hstep]; exact heq, hrest⟩

end Ecc

namespace Ecc

theorem natAbs_MOD : MOD.natAbs = Pn := by
  rw [Ecc.MOD_eq_Pn]
  exact Int.natAbs_ofNat Pn

theorem inverse_ok (a : ℤ) (h0 : 0 < a) (h1 : a < MOD) :
    ∃ t : ℤ, inverse a = .ok t ∧ 0 < t ∧ t < MOD ∧
      MOD ∣ (a * t - 1) ∧ (a * t) % MOD = 1 := by
  have hMOD := MOD_gt_one
  obtain ⟨tf, ntf, rf, heq, hrf, hdvd1, hdvd2, hprod, habs⟩ :=
    euclidLoop_spec a (a.natAbs + 1) 0 1 MOD a
      (by simp) (by simp) (by right; ring) (by norm_num) (by simp)
      (le_of_lt h0) h1 (by omega)
  have hrf1 : rf = 1 := by
    have hdvdP : rf.natAbs ∣ Pn := ⟨ntf.natAbs, hprod.symm⟩
    rcases (Nat.Prime.eq_one_or_self_of_dvd Pn_prime _ hdvdP) with hc | hc
    · omega
    · exfalso
      have hnt1 : ntf.natAbs = 1 := by
        rw [hc] at hprod
        have h2le := Pn_prime.two_le
        have := Nat.eq_of_mul_eq_mul_left (show 0 < Pn by omega)
          (show Pn * ntf.natAbs = Pn * 1 by omega)
        omega
      have hcases : ntf = 1 ∨ ntf = -1 := by omega
      have hdvda : MOD ∣ a := by
        rcases hcases with hcase | hcase <;> rw [hcase] at hdvd2
        · simpa using hdvd2
        · rw [show (-1 : ℤ) * a = -a by ring] at hdvd2
          exact (dvd_neg).mp hdvd2
      have := Int.le_of_dvd h0 hdvda
      omega
  subst hrf1
  have hntfP : ntf.natAbs = Pn := by
    simpa using hprod
  have htf0 : tf ≠ 0 := by
    intro hz
    rw [hz] at hdvd1
    have hone : MOD ∣ (1 : ℤ) := by
      have hx : MOD ∣ -(0 * a - 1) := (dvd_neg).mpr hdvd1
      simpa using hx
    have := Int.le_of_dvd one_pos hone
    omega
  have htfP : tf.natAbs ≠ Pn := by
    intro hEq
    have hcases : tf = (Pn : ℤ) ∨ tf = -(Pn : ℤ) := by omega
    have hdvdtf : MOD ∣ tf := by
      rcases hcases with hcase | hcase <;> simp [hcase, Ecc.MOD_eq_Pn]
    have hdvdta : MOD ∣ tf * a := dvd_mul_of_dvd_left hdvdtf a
    have hone : MOD ∣ (1 : ℤ) := by
      have hx := dvd_sub hdvdta hdvd1
      rw [show tf * a - (tf * a - 1) = 1 by ring] at hx
      exact hx
    have := Int.le_of_dvd one_pos hone
    omega
  have hMODPn : MOD = (Pn : ℤ) := MOD_eq_Pn
  have htfabs : tf.natAbs < Pn := by omega
  have hdvd1' : MOD ∣ (a * tf - 1) := by
    rw [show a * tf - 1 = tf * a - 1 by ring]
    exact hdvd1
  rcases lt_or_le tf 0 with hneg | hpos
  · -- tf < 0 : the code returns tf + MOD
    have hxdvd : MOD ∣ a * (tf + MOD) - 1 := by
      have hmm : MOD ∣ a * MOD := Dvd.intro_left a rfl
      have hy := dvd_add hdvd1' hmm
      rw [show a * tf - 1 + a * MOD = a * (tf + MOD) - 1 by ring] at hy
      exact hy
    refine ⟨tf + MOD, ?_, by omega, by omega, hxdvd, ?_⟩
    · unfold inverse
      rw [heq]
      simp only []
      rw [if_pos trivial, if_pos hneg, if_pos (by omega : tf + MOD > 0),
        if_pos (by omega : tf + MOD < MOD)]
    · have hcong : a * (tf + MOD) % MOD = 1 % MOD :=
        Int.ModEq.symm ((Int.modEq_iff_dvd).mpr hxdvd)
      rw [hcong, Int.emod_eq_of_lt (by norm_num) hMOD]
  · -- 0 < tf : the code returns tf unchanged
    have hpos' : 0 < tf := by omega
    refine ⟨tf, ?_, hpos', by omega, hdvd1', ?_⟩
    · unfold inverse
      rw [heq]
      simp only []
      rw [if_pos trivial, if_neg (by omega : ¬ tf < 0), if_pos (by omega : tf > 0),
        if_pos (by omega : tf < MOD)]
    · have hcong : a * tf % MOD = 1 % MOD :=
        Int.ModEq.symm ((Int.modEq_iff_dvd).mpr hdvd1')
      rw [hcong, Int.emod_eq_of_lt (by norm_num) hMOD]

theorem div_ok (a b : ℤ) (ha0 : 0 ≤ a) (ha1 : a < MOD) (hb0 : 0 < b) (hb1 : b < MOD) :
    ∃ ib : ℤ, inverse b = .ok ib ∧ 0 < ib ∧ ib < MOD ∧ (b * ib) % MOD = 1 ∧
      div a b = .ok ((a * ib) % MOD) := by
  obtain ⟨ib, hib, h2, h3, _, h4⟩ := inverse_ok b hb0 hb1
  refine ⟨ib, hib, h2, h3, h4, ?_⟩
  unfold div
  rw [if_pos ⟨ha1, hb1, ha0, le_of_lt hb0⟩, hib, bind_ok]
  exact mul_ok a ib ha0 ha1 (le_of_lt h2) h3

end Ecc

namespace Ecc

/-! ## Claims about the field layer -/

/-- C2: for every integer `a` with `0 < a < p`, `inverse(a)` (computed by the
extended Euclidean algorithm embedded in `euclidLoop`) succeeds, its result
lies in `[0, p)`, it is the modular multiplicative inverse of `a`, and
`mul(a, inverse(a)) = 1`. -/
theorem claim_C2 (a : ℤ) (h0 : 0 < a) (h1 : a < MOD) :
    ∃ t : ℤ, inverse a = .ok t ∧ 0 ≤ t ∧ t < MOD ∧
      (a * t) % MOD = 1 ∧ mul a t = .ok 1 := by
  obtain ⟨t, ht, h2, h3, _, h5⟩ := inverse_ok a h0 h1
  refine ⟨t, ht, le_of_lt h2, h3, h5, ?_⟩
  rw [mul_ok a t (le_of_lt h0) h1 (le_of_lt h2) h3, h5]

theorem claim_C2_witness :
    (0 : ℤ) < 2 ∧ (2 : ℤ) < MOD ∧
      ∃ t : ℤ, inverse 2 = .ok t ∧ 0 ≤ t ∧ t < MOD ∧
        (2 * t) % MOD = 1 ∧ mul 2 t = .ok 1 :=
  ⟨by norm_num, by norm_num [Ecc.MOD],
    claim_C2 2 (by norm_num) (by norm_num [Ecc.MOD])⟩

/-- C7: for all `a, b ∈ [0, p)`, `add(a,b) = (a+b) mod p`,
`sub(a,b) = (a-b) mod p`, `mul(a,b) = (a*b) mod p`, and all three results lie
in `[0, p)` (in particular `add`'s single `sub(a+b, p)` correction step
reduces the raw sum, which may reach `2p-2`). -/
theorem claim_C7 (a b : ℤ) (h1 : 0 ≤ a) (h2 : a < MOD) (h3 : 0 ≤ b) (h4 : b < MOD) :
    add a b = .ok ((a + b) % MOD) ∧ sub a b = (a - b) % MOD ∧
      mul a b = .ok ((a * b) % MOD) ∧
      (0 ≤ (a + b) % MOD ∧ (a + b) % MOD < MOD) ∧
      (0 ≤ (a - b) % MOD ∧ (a - b) % MOD < MOD) ∧
      (0 ≤ (a * b) % MOD ∧ (a * b) % MOD < MOD) :=
  ⟨add_ok a b h1 h2 h3 h4, sub_emod a b h1 h2 h3 h4, mul_ok a b h1 h2 h3 h4,
    emod_range _, emod_range _, emod_range _⟩

theorem claim_C7_witness :
    (0 : ℤ) ≤ 3 ∧ (3 : ℤ) < MOD ∧ (0 : ℤ) ≤ 5 ∧ (5 : ℤ) < MOD ∧
      (add 3 5 = .ok ((3 + 5) % MOD) ∧ sub 3 5 = (3 - 5) % MOD ∧
        mul 3 5 = .ok ((3 * 5) % MOD) ∧
        (0 ≤ (3 + 5 : ℤ) % MOD ∧ (3 + 5 : ℤ) % MOD < MOD) ∧
        (0 ≤ (3 - 5 : ℤ) % MOD ∧ (3 - 5 : ℤ) % MOD < MOD) ∧
        (0 ≤ (3 * 5 : ℤ) % MOD ∧ (3 * 5 : ℤ) % MOD < MOD)) :=
  ⟨by norm_num, by norm_num [Ecc.MOD], by norm_num, by norm_num [Ecc.MOD],
    claim_C7 3 5 (by norm_num) (by norm_num [Ecc.MOD]) (by norm_num)
      (by norm_num [Ecc.MOD])⟩

/-- C8: for `a, b ∈ [0, p)`: when `b ≠ 0`, `divide(a, b)` succeeds and equals
`a * inverse(b) mod p`; `divide(a, 0)` and `inverse(0)` fail with
`DivisionByZero`. -/
theorem claim_C8 :
    (∀ a b : ℤ, 0 ≤ a → a < MOD → 0 < b → b < MOD →
      ∃ ib : ℤ, inverse b = .ok ib ∧ div a b = .ok ((a * ib) % MOD)) ∧
    (∀ a : ℤ, 0 ≤ a → a < MOD → div a 0 = .error .divisionByZero) ∧
    inverse 0 = .error .divisionByZero := by
  refine ⟨?_, ?_, by decide⟩
  · intro a b ha0 ha1 hb0 hb1
    obtain ⟨ib, hib, _, _, _, hdiv⟩ := div_ok a b ha0 ha1 hb0 hb1
    exact ⟨ib, hib, hdiv⟩
  · intro a ha0 ha1
    unfold div
    rw [if_pos ⟨ha1, MOD_pos, ha0, le_refl (0 : ℤ)⟩,
      show inverse 0 = .error Err.divisionByZero from by decide, bind_err]

theorem claim_C8_witness :
    (∃ ib : ℤ, inverse 3 = .ok ib ∧ div 5 3 = .ok ((5 * ib) % MOD)) ∧
      div 5 0 = .error .divisionByZero :=
  ⟨claim_C8.1 5 3 (by norm_num) (by norm_num [Ecc.MOD]) (by norm_num)
      (by norm_num [Ecc.MOD]),
    claim_C8.2.1 5 (by norm_num) (by norm_num [Ecc.MOD])⟩

/-! ## Claims about the affine group law -/

/-- C4: for every point `P` of the `None`-extended affine domain (the
identity included), `add(P, identity) = P` and `add(identity, P) = P`. -/
theorem claim_C4 (P : Option Affine) :
    Affine.add P none = .ok P ∧ Affine.add none P = .ok P := by
  cases P <;> exact ⟨rfl, rfl⟩

end Ecc

namespace Ecc

theorem affine_neg_ok (s : Affine) (h3 : 0 ≤ s.y) (h4 : s.y < MOD) :
    s.neg = .ok ⟨s.x, (-s.y) % MOD⟩ := by
  unfold Affine.neg
  rw [neg_ok s.y h3 h4, bind_ok]
  rfl

/-- C6: for every non-identity affine point with coordinates in `[0, p)`,
lifting to projective with `z = 1` and converting back is the identity:
`as_affine(as_projective(P)) = P`. -/
theorem claim_C6 (P : Affine) (h : inRange P) :
    P.as_projective.as_affine = .ok (some P) := by
  obtain ⟨h1, h2, h3, h4⟩ := h
  unfold Affine.as_projective Projective.as_affine
  dsimp only
  rw [if_neg (by norm_num : ¬ (1 : ℤ) = 0),
    show inverse 1 = .ok 1 from by decide, bind_ok,
    mul_ok P.x 1 h1 h2 (by norm_num) MOD_gt_one, bind_ok,
    mul_ok P.y 1 h3 h4 (by norm_num) MOD_gt_one, bind_ok,
    mul_one, mul_one, Int.emod_eq_of_lt h1 h2, Int.emod_eq_of_lt h3 h4]
  rfl

theorem claim_C6_witness :
    inRange BASE_POINT ∧ BASE_POINT.as_projective.as_affine = .ok (some BASE_POINT) :=
  ⟨by decide, claim_C6 BASE_POINT (by decide)⟩

/-- C10: what the code actually does on `Projective.neg`: the source returns
`Affine(self.x, neg(self.y), self.z)`, a three-argument call to the
two-parameter `Affine` constructor, so for every projective point with an
in-range `y` the call raises `TypeError` instead of returning the projective
point `(x, -y mod p, z)` required by the claim. -/
theorem claim_C10_code_behavior (x y z : ℤ) (h3 : 0 ≤ y) (h4 : y < MOD) :
    Projective.neg ⟨x, y, z⟩ = .error .typeError := by
  unfold Projective.neg
  dsimp only
  rw [neg_ok y h3 h4, bind_ok]

theorem claim_C10_witness :
    (0 : ℤ) ≤ 2 ∧ (2 : ℤ) < MOD ∧ Projective.neg ⟨1, 2, 3⟩ = .error .typeError :=
  ⟨by norm_num, by norm_num [Ecc.MOD],
    claim_C10_code_behavior 1 2 3 (by norm_num) (by norm_num [Ecc.MOD])⟩

/-- C5 (counterexample part): the claim asserts that the identity negates to
itself, but invoking negation on the identity `None` raises `AttributeError`
(accessing `self.x` on `None`), so it does not return the identity. -/
theorem claim_C5_counterexample :
    negPoint none = .error .attributeError ∧ negPoint none ≠ .ok none := by
  exact ⟨rfl, by decide⟩

/-- C5 (amended): for every non-identity affine point `P` with coordinates in
`[0, p)`, `negate(P) = (P.x, -P.y mod p)` and `add(P, negate(P)) = identity`
(the vertical-line case); negating the identity raises `AttributeError`
rather than returning the identity. -/
theorem claim_C5_amended (x y : ℤ) (h1 : 0 ≤ x) (h2 : x < MOD)
    (h3 : 0 ≤ y) (h4 : y < MOD) :
    negPoint (some ⟨x, y⟩) = .ok (some ⟨x, (-y) % MOD⟩) ∧
      Affine.add (some ⟨x, y⟩) (some ⟨x, (-y) % MOD⟩) = .ok none := by
  constructor
  · unfold negPoint
    dsimp only
    rw [affine_neg_ok ⟨x, y⟩ h3 h4, bind_ok]
    rfl
  · unfold Affine.add
    dsimp only
    rw [affine_neg_ok ⟨x, y⟩ h3 h4, bind_ok, if_pos rfl]
    rfl

theorem claim_C5_amended_witness :
    (0 : ℤ) ≤ 4 ∧ (4 : ℤ) < MOD ∧ (0 : ℤ) ≤ 9 ∧ (9 : ℤ) < MOD ∧
      (negPoint (some ⟨4, 9⟩) = .ok (some ⟨4, (-9 : ℤ) % MOD⟩) ∧
        Affine.add (some ⟨4, 9⟩) (some ⟨4, (-9 : ℤ) % MOD⟩) = .ok none) :=
  ⟨by norm_num, by norm_num [Ecc.MOD], by norm_num, by norm_num [Ecc.MOD],
    claim_C5_amended 4 9 (by norm_num) (by norm_num [Ecc.MOD]) (by norm_num)
      (by norm_num [Ecc.MOD])⟩

/-- C9 (counterexample): at the concrete 2-torsion-shaped input
`P = (5, 0)`, `add(P, P)` does *not* fail with `DivisionByZero`: since
`neg(0) = 0`, the self-negation case `P = -P` fires before the doubling
branch and the sum is the identity. -/
theorem claim_C9_counterexample :
    Affine.add (some ⟨5, 0⟩) (some ⟨5, 0⟩) = .ok none ∧
      Affine.add (some ⟨5, 0⟩) (some ⟨5, 0⟩) ≠ .error .divisionByZero := by
  exact ⟨by decide, by decide⟩

/-- C9 (amended): for every affine point `P` with `P.y = 0` and `P.x ∈ [0,p)`,
`add(P, P)` is caught by the self-negation case (`-0 = 0` makes `P = -P`) and
returns the identity; the doubling branch and its `2 * P.y` tangent-slope
division are never reached. -/
theorem claim_C9_amended (x : ℤ) (h1 : 0 ≤ x) (h2 : x < MOD) :
    Affine.add (some ⟨x, 0⟩) (some ⟨x, 0⟩) = .ok none := by
  have hneg : (Affine.mk x 0).neg = .ok ⟨x, 0⟩ := by
    rw [affine_neg_ok ⟨x, 0⟩ (le_refl (0 : ℤ)) MOD_pos]
    norm_num
  unfold Affine.add
  dsimp only
  rw [hneg, bind_ok, if_pos rfl]
  rfl

theorem claim_C9_amended_witness :
    (0 : ℤ) ≤ 7 ∧ (7 : ℤ) < MOD ∧ Affine.add (some ⟨7, 0⟩) (some ⟨7, 0⟩) = .ok none :=
  ⟨by norm_num, by norm_num [Ecc.MOD], claim_C9_amended 7 (by norm_num) (by norm_num [Ecc.MOD])⟩

end Ecc

namespace Ecc

theorem mul_zero_ok (b : ℤ) (hb1 : 0 ≤ b) (hb2 : b < MOD) : mul 0 b = .ok 0 := by
  rw [mul_ok 0 b le_rfl MOD_pos hb1 hb2, zero_mul, Int.zero_emod]

/-- C3: for every projective point `P` with coordinates in `[0, p)`, the
projective chord formula applied to `P` and `P` returns the degenerate triple
`(0, 0, 0)` rather than a doubling: `u = v = 0` drives every intermediate
term to zero. -/
theorem claim_C3 (x y z : ℤ) (h1 : 0 ≤ x) (h2 : x < MOD) (h3 : 0 ≤ y)
    (h4 : y < MOD) (h5 : 0 ≤ z) (h6 : z < MOD) :
    Projective.add ⟨x, y, z⟩ ⟨x, y, z⟩ = .ok ⟨0, 0, 0⟩ := by
  have hyz := emod_range (y * z)
  have hxz := emod_range (x * z)
  have hzz := emod_range (z * z)
  have e1 : mul y z = .ok ((y * z) % MOD) := mul_ok y z h3 h4 h5 h6
  have e2 : mul x z = .ok ((x * z) % MOD) := mul_ok x z h1 h2 h5 h6
  have e3 : mul z z = .ok ((z * z) % MOD) := mul_ok z z h5 h6 h5 h6
  have e4 : mul 0 ((x * z) % MOD) = .ok 0 := mul_zero_ok _ hxz.1 hxz.2
  have e5 : mul 0 ((y * z) % MOD) = .ok 0 := mul_zero_ok _ hyz.1 hyz.2
  have e6 : mul 0 ((z * z) % MOD) = .ok 0 := mul_zero_ok _ hzz.1 hzz.2
  have e7 : sqr 0 = .ok (0 : ℤ) := by decide
  have e8 : mul 0 0 = .ok (0 : ℤ) := by decide
  have e9 : mul 2 0 = .ok (0 : ℤ) := by decide
  unfold Projective.add
  dsimp only
  simp only [e1, e2, e3, e4, e5, e6, e7, e8, e9, sub_self_eq, bind_ok]
  rfl

theorem claim_C3_witness :
    (0 : ℤ) ≤ 1 ∧ (1 : ℤ) < MOD ∧ (0 : ℤ) ≤ 2 ∧ (2 : ℤ) < MOD ∧
      (0 : ℤ) ≤ 3 ∧ (3 : ℤ) < MOD ∧
      Projective.add ⟨1, 2, 3⟩ ⟨1, 2, 3⟩ = .ok ⟨0, 0, 0⟩ :=
  ⟨by norm_num, by norm_num [Ecc.MOD], by norm_num, by norm_num [Ecc.MOD],
    by norm_num, by norm_num [Ecc.MOD],
    claim_C3 1 2 3 (by norm_num) (by norm_num [Ecc.MOD]) (by norm_num)
      (by norm_num [Ecc.MOD]) (by norm_num) (by norm_num [Ecc.MOD])⟩

end Ecc

namespace Ecc

theorem inverse_cast (a : ℤ) (h0 : 0 < a) (h1 : a < MOD) :
    ∃ t : ℤ, inverse a = .ok t ∧ 0 < t ∧ t < MOD ∧
      (a : ZMod Pn) * (t : ZMod Pn) = 1 := by
  obtain ⟨t, ht, h2, h3, _, h5⟩ := inverse_ok a h0 h1
  refine ⟨t, ht, h2, h3, ?_⟩
  have hc : (((a * t) % MOD : ℤ) : ZMod Pn) = ((1 : ℤ) : ZMod Pn) := by rw [h5]
  rw [cast_emod] at hc
  push_cast at hc
  exact hc

theorem sub_pos_of_ne (a b : ℤ) (h1 : 0 ≤ a) (h2 : a < MOD) (h3 : 0 ≤ b)
    (h4 : b < MOD) (hne : a ≠ b) : 0 < sub a b := by
  simp only [sub, MOD] at *
  split <;> omega

theorem cast_ne_of_range_ne (a b : ℤ) (h1 : 0 ≤ a) (h2 : a < MOD) (h3 : 0 ≤ b)
    (h4 : b < MOD) (hne : a ≠ b) : (a : ZMod Pn) ≠ (b : ZMod Pn) := by
  intro h
  exact hne (cast_inj a b h1 h2 h3 h4 h)

/-- The pure field identity behind cross-representation consistency: with
`V = xQ - xP ≠ 0`, slope `m` satisfying `V * m = yQ - yP`, and `vinv` the
inverse of `V^3`, the projective chord outputs divided by `V^3` are the
affine chord outputs. -/
theorem zmod_chord (xP yP xQ yQ m vinv : ZMod Pn)
    (hV : xQ - xP ≠ 0)
    (hm : (xQ - xP) * m = yQ - yP)
    (hz : (xQ - xP) ^ 3 * vinv = 1) :
    (xQ - xP) *
        ((yQ - yP) ^ 2 - (xQ - xP) ^ 3 - 2 * ((xQ - xP) ^ 2 * xP)) * vinv
      = m ^ 2 - xP - xQ ∧
    (((xQ - xP) ^ 2 * xP -
          ((yQ - yP) ^ 2 - (xQ - xP) ^ 3 - 2 * ((xQ - xP) ^ 2 * xP))) *
            (yQ - yP) -
          (xQ - xP) ^ 3 * yP) * vinv
      = m * (xP - (m ^ 2 - xP - xQ)) - yP := by
  have hV3 : (xQ - xP) ^ 3 ≠ 0 := pow_ne_zero 3 hV
  have hvinv : vinv = ((xQ - xP) ^ 3)⁻¹ := eq_inv_of_mul_eq_one_left
    (by rw [mul_comm]; exact hz)
  have hm' : m = (yQ - yP) / (xQ - xP) := by
    rw [eq_div_iff hV, mul_comm]
    exact hm
  subst hvinv
  subst hm'
  constructor
  · field_simp
    ring
  · field_simp
    ring

end Ecc

namespace Ecc

theorem mul_one_ok (a : ℤ) (h1 : 0 ≤ a) (h2 : a < MOD) : mul a 1 = .ok a := by
  rw [mul_ok a 1 h1 h2 (by norm_num) MOD_gt_one, mul_one, Int.emod_eq_of_lt h1 h2]

/-- Symbolic execution of `Projective.add` on two `z = 1` lifts: it always
succeeds for reduced inputs, its output is reduced, and modulo `p` the output
coordinates are the textbook projective chord values. -/
theorem projAdd_z1 (P Q : Affine) (hP : inRange P) (hQ : inRange Q) :
    ∃ R : Projective,
      Projective.add P.as_projective Q.as_projective = .ok R ∧
      inRangeP R ∧
      (R.x : ZMod Pn) = ((Q.x : ZMod Pn) - (P.x : ZMod Pn)) * (((Q.y : ZMod Pn) - (P.y : ZMod Pn)) ^ 2 - ((Q.x : ZMod Pn) - (P.x : ZMod Pn)) ^ 3 - 2 * (((Q.x : ZMod Pn) - (P.x : ZMod Pn)) ^ 2 * (P.x : ZMod Pn))) ∧
      (R.y : ZMod Pn) = (((Q.x : ZMod Pn) - (P.x : ZMod Pn)) ^ 2 * (P.x : ZMod Pn) - (((Q.y : ZMod Pn) - (P.y : ZMod Pn)) ^ 2 - ((Q.x : ZMod Pn) - (P.x : ZMod Pn)) ^ 3 - 2 * (((Q.x : ZMod Pn) - (P.x : ZMod Pn)) ^ 2 * (P.x : ZMod Pn)))) * ((Q.y : ZMod Pn) - (P.y : ZMod Pn)) - ((Q.x : ZMod Pn) - (P.x : ZMod Pn)) ^ 3 * (P.y : ZMod Pn) ∧
      (R.z : ZMod Pn) = ((Q.x : ZMod Pn) - (P.x : ZMod Pn)) ^ 3 := by
  obtain ⟨hPx0, hPx1, hPy0, hPy1⟩ := hP
  obtain ⟨hQx0, hQx1, hQy0, hQy1⟩ := hQ
  have hUr := sub_range Q.y P.y hQy0 hQy1 hPy0 hPy1
  have hVr := sub_range Q.x P.x hQx0 hQx1 hPx0 hPx1
  have hV2r := emod_range ((sub Q.x P.x) * (sub Q.x P.x))
  have hV3r := emod_range ((((sub Q.x P.x) * (sub Q.x P.x)) % MOD) * (sub Q.x P.x))
  have hVV2r := emod_range ((((sub Q.x P.x) * (sub Q.x P.x)) % MOD) * P.x)
  have hU2r := emod_range ((sub Q.y P.y) * (sub Q.y P.y))
  have hM2r := emod_range ((2 : ℤ) * (((((sub Q.x P.x) * (sub Q.x P.x)) % MOD) * P.x) % MOD))
  have ha1r := sub_range (((sub Q.y P.y) * (sub Q.y P.y)) % MOD) (((((sub Q.x P.x) * (sub Q.x P.x)) % MOD) * (sub Q.x P.x)) % MOD) hU2r.1 hU2r.2 hV3r.1 hV3r.2
  have ha2r := sub_range (sub (((sub Q.y P.y) * (sub Q.y P.y)) % MOD) (((((sub Q.x P.x) * (sub Q.x P.x)) % MOD) * (sub Q.x P.x)) % MOD)) (((2 : ℤ) * (((((sub Q.x P.x) * (sub Q.x P.x)) % MOD) * P.x) % MOD)) % MOD) ha1r.1 ha1r.2 hM2r.1 hM2r.2
  have hXr := emod_range ((sub Q.x P.x) * (sub (sub (((sub Q.y P.y) * (sub Q.y P.y)) % MOD) (((((sub Q.x P.x) * (sub Q.x P.x)) % MOD) * (sub Q.x P.x)) % MOD)) (((2 : ℤ) * (((((sub Q.x P.x) * (sub Q.x P.x)) % MOD) * P.x) % MOD)) % MOD)))
  have hy0r := sub_range (((((sub Q.x P.x) * (sub Q.x P.x)) % MOD) * P.x) % MOD) (sub (sub (((sub Q.y P.y) * (sub Q.y P.y)) % MOD) (((((sub Q.x P.x) * (sub Q.x P.x)) % MOD) * (sub Q.x P.x)) % MOD)) (((2 : ℤ) * (((((sub Q.x P.x) * (sub Q.x P.x)) % MOD) * P.x) % MOD)) % MOD)) hVV2r.1 hVV2r.2 ha2r.1 ha2r.2
  have hy1r := emod_range ((sub (((((sub Q.x P.x) * (sub Q.x P.x)) % MOD) * P.x) % MOD) (sub (sub (((sub Q.y P.y) * (sub Q.y P.y)) % MOD) (((((sub Q.x P.x) * (sub Q.x P.x)) % MOD) * (sub Q.x P.x)) % MOD)) (((2 : ℤ) * (((((sub Q.x P.x) * (sub Q.x P.x)) % MOD) * P.x) % MOD)) % MOD))) * (sub Q.y P.y))
  have hvcu2r := emod_range ((((((sub Q.x P.x) * (sub Q.x P.x)) % MOD) * (sub Q.x P.x)) % MOD) * P.y)
  have hYr := sub_range (((sub (((((sub Q.x P.x) * (sub Q.x P.x)) % MOD) * P.x) % MOD) (sub (sub (((sub Q.y P.y) * (sub Q.y P.y)) % MOD) (((((sub Q.x P.x) * (sub Q.x P.x)) % MOD) * (sub Q.x P.x)) % MOD)) (((2 : ℤ) * (((((sub Q.x P.x) * (sub Q.x P.x)) % MOD) * P.x) % MOD)) % MOD))) * (sub Q.y P.y)) % MOD) (((((((sub Q.x P.x) * (sub Q.x P.x)) % MOD) * (sub Q.x P.x)) % MOD) * P.y) % MOD) hy1r.1 hy1r.2 hvcu2r.1 hvcu2r.2
  have e_u1 : mul Q.y 1 = .ok Q.y := mul_one_ok Q.y hQy0 hQy1
  have e_u2 : mul P.y 1 = .ok P.y := mul_one_ok P.y hPy0 hPy1
  have e_v1 : mul Q.x 1 = .ok Q.x := mul_one_ok Q.x hQx0 hQx1
  have e_v2 : mul P.x 1 = .ok P.x := mul_one_ok P.x hPx0 hPx1
  have e_w : mul 1 1 = .ok (1 : ℤ) := by decide
  have e_vsqr : sqr (sub Q.x P.x) = .ok (((sub Q.x P.x) * (sub Q.x P.x)) % MOD) := sqr_ok (sub Q.x P.x) hVr.1 hVr.2
  have e_vcube : mul (((sub Q.x P.x) * (sub Q.x P.x)) % MOD) (sub Q.x P.x) = .ok (((((sub Q.x P.x) * (sub Q.x P.x)) % MOD) * (sub Q.x P.x)) % MOD) :=
    mul_ok (((sub Q.x P.x) * (sub Q.x P.x)) % MOD) (sub Q.x P.x) hV2r.1 hV2r.2 hVr.1 hVr.2
  have e_vv2 : mul (((sub Q.x P.x) * (sub Q.x P.x)) % MOD) P.x = .ok (((((sub Q.x P.x) * (sub Q.x P.x)) % MOD) * P.x) % MOD) :=
    mul_ok (((sub Q.x P.x) * (sub Q.x P.x)) % MOD) P.x hV2r.1 hV2r.2 hPx0 hPx1
  have e_usqr : sqr (sub Q.y P.y) = .ok (((sub Q.y P.y) * (sub Q.y P.y)) % MOD) := sqr_ok (sub Q.y P.y) hUr.1 hUr.2
  have e_a0 : mul (((sub Q.y P.y) * (sub Q.y P.y)) % MOD) 1 = .ok (((sub Q.y P.y) * (sub Q.y P.y)) % MOD) := mul_one_ok (((sub Q.y P.y) * (sub Q.y P.y)) % MOD) hU2r.1 hU2r.2
  have e_m2 : mul 2 (((((sub Q.x P.x) * (sub Q.x P.x)) % MOD) * P.x) % MOD) = .ok (((2 : ℤ) * (((((sub Q.x P.x) * (sub Q.x P.x)) % MOD) * P.x) % MOD)) % MOD) :=
    mul_ok 2 (((((sub Q.x P.x) * (sub Q.x P.x)) % MOD) * P.x) % MOD) (by norm_num) (by norm_num [Ecc.MOD]) hVV2r.1 hVV2r.2
  have e_x : mul (sub Q.x P.x) (sub (sub (((sub Q.y P.y) * (sub Q.y P.y)) % MOD) (((((sub Q.x P.x) * (sub Q.x P.x)) % MOD) * (sub Q.x P.x)) % MOD)) (((2 : ℤ) * (((((sub Q.x P.x) * (sub Q.x P.x)) % MOD) * P.x) % MOD)) % MOD)) = .ok (((sub Q.x P.x) * (sub (sub (((sub Q.y P.y) * (sub Q.y P.y)) % MOD) (((((sub Q.x P.x) * (sub Q.x P.x)) % MOD) * (sub Q.x P.x)) % MOD)) (((2 : ℤ) * (((((sub Q.x P.x) * (sub Q.x P.x)) % MOD) * P.x) % MOD)) % MOD))) % MOD) :=
    mul_ok (sub Q.x P.x) (sub (sub (((sub Q.y P.y) * (sub Q.y P.y)) % MOD) (((((sub Q.x P.x) * (sub Q.x P.x)) % MOD) * (sub Q.x P.x)) % MOD)) (((2 : ℤ) * (((((sub Q.x P.x) * (sub Q.x P.x)) % MOD) * P.x) % MOD)) % MOD)) hVr.1 hVr.2 ha2r.1 ha2r.2
  have e_y1 : mul (sub (((((sub Q.x P.x) * (sub Q.x P.x)) % MOD) * P.x) % MOD) (sub (sub (((sub Q.y P.y) * (sub Q.y P.y)) % MOD) (((((sub Q.x P.x) * (sub Q.x P.x)) % MOD) * (sub Q.x P.x)) % MOD)) (((2 : ℤ) * (((((sub Q.x P.x) * (sub Q.x P.x)) % MOD) * P.x) % MOD)) % MOD))) (sub Q.y P.y) = .ok (((sub (((((sub Q.x P.x) * (sub Q.x P.x)) % MOD) * P.x) % MOD) (sub (sub (((sub Q.y P.y) * (sub Q.y P.y)) % MOD) (((((sub Q.x P.x) * (sub Q.x P.x)) % MOD) * (sub Q.x P.x)) % MOD)) (((2 : ℤ) * (((((sub Q.x P.x) * (sub Q.x P.x)) % MOD) * P.x) % MOD)) % MOD))) * (sub Q.y P.y)) % MOD) :=
    mul_ok (sub (((((sub Q.x P.x) * (sub Q.x P.x)) % MOD) * P.x) % MOD) (sub (sub (((sub Q.y P.y) * (sub Q.y P.y)) % MOD) (((((sub Q.x P.x) * (sub Q.x P.x)) % MOD) * (sub Q.x P.x)) % MOD)) (((2 : ℤ) * (((((sub Q.x P.x) * (sub Q.x P.x)) % MOD) * P.x) % MOD)) % MOD))) (sub Q.y P.y) hy0r.1 hy0r.2 hUr.1 hUr.2
  have e_vcu2 : mul (((((sub Q.x P.x) * (sub Q.x P.x)) % MOD) * (sub Q.x P.x)) % MOD) P.y = .ok (((((((sub Q.x P.x) * (sub Q.x P.x)) % MOD) * (sub Q.x P.x)) % MOD) * P.y) % MOD) :=
    mul_ok (((((sub Q.x P.x) * (sub Q.x P.x)) % MOD) * (sub Q.x P.x)) % MOD) P.y hV3r.1 hV3r.2 hPy0 hPy1
  have e_z : mul (((((sub Q.x P.x) * (sub Q.x P.x)) % MOD) * (sub Q.x P.x)) % MOD) 1 = .ok (((((sub Q.x P.x) * (sub Q.x P.x)) % MOD) * (sub Q.x P.x)) % MOD) := mul_one_ok (((((sub Q.x P.x) * (sub Q.x P.x)) % MOD) * (sub Q.x P.x)) % MOD) hV3r.1 hV3r.2
  have cU : ((sub Q.y P.y : ℤ) : ZMod Pn) = ((Q.y : ZMod Pn) - (P.y : ZMod Pn)) := cast_sub Q.y P.y
  have cV : ((sub Q.x P.x : ℤ) : ZMod Pn) = ((Q.x : ZMod Pn) - (P.x : ZMod Pn)) := cast_sub Q.x P.x
  have cV2 : ((((sub Q.x P.x) * (sub Q.x P.x)) % MOD : ℤ) : ZMod Pn) = ((Q.x : ZMod Pn) - (P.x : ZMod Pn)) ^ 2 := by
    rw [cast_emod, Int.cast_mul, cV]
    ring
  have cV3 : ((((((sub Q.x P.x) * (sub Q.x P.x)) % MOD) * (sub Q.x P.x)) % MOD : ℤ) : ZMod Pn) = ((Q.x : ZMod Pn) - (P.x : ZMod Pn)) ^ 3 := by
    rw [cast_emod, Int.cast_mul, cV2, cV]
    ring
  have cVV2 : ((((((sub Q.x P.x) * (sub Q.x P.x)) % MOD) * P.x) % MOD : ℤ) : ZMod Pn) = ((Q.x : ZMod Pn) - (P.x : ZMod Pn)) ^ 2 * (P.x : ZMod Pn) := by
    rw [cast_emod, Int.cast_mul, cV2]
  have cU2 : ((((sub Q.y P.y) * (sub Q.y P.y)) % MOD : ℤ) : ZMod Pn) = ((Q.y : ZMod Pn) - (P.y : ZMod Pn)) ^ 2 := by
    rw [cast_emod, Int.cast_mul, cU]
    ring
  have cM2 : ((((2 : ℤ) * (((((sub Q.x P.x) * (sub Q.x P.x)) % MOD) * P.x) % MOD)) % MOD : ℤ) : ZMod Pn) = 2 * (((Q.x : ZMod Pn) - (P.x : ZMod Pn)) ^ 2 * (P.x : ZMod Pn)) := by
    rw [cast_emod, Int.cast_mul, cVV2]
    push_cast
    ring
  have ca1 : ((sub (((sub Q.y P.y) * (sub Q.y P.y)) % MOD) (((((sub Q.x P.x) * (sub Q.x P.x)) % MOD) * (sub Q.x P.x)) % MOD) : ℤ) : ZMod Pn) = ((Q.y : ZMod Pn) - (P.y : ZMod Pn)) ^ 2 - ((Q.x : ZMod Pn) - (P.x : ZMod Pn)) ^ 3 := by
    rw [cast_sub, cU2, cV3]
  have ca2 : ((sub (sub (((sub Q.y P.y) * (sub Q.y P.y)) % MOD) (((((sub Q.x P.x) * (sub Q.x P.x)) % MOD) * (sub Q.x P.x)) % MOD)) (((2 : ℤ) * (((((sub Q.x P.x) * (sub Q.x P.x)) % MOD) * P.x) % MOD)) % MOD) : ℤ) : ZMod Pn)
      = ((Q.y : ZMod Pn) - (P.y : ZMod Pn)) ^ 2 - ((Q.x : ZMod Pn) - (P.x : ZMod Pn)) ^ 3 - 2 * (((Q.x : ZMod Pn) - (P.x : ZMod Pn)) ^ 2 * (P.x : ZMod Pn)) := by
    rw [cast_sub, ca1, cM2]
  have cX : ((((sub Q.x P.x) * (sub (sub (((sub Q.y P.y) * (sub Q.y P.y)) % MOD) (((((sub Q.x P.x) * (sub Q.x P.x)) % MOD) * (sub Q.x P.x)) % MOD)) (((2 : ℤ) * (((((sub Q.x P.x) * (sub Q.x P.x)) % MOD) * P.x) % MOD)) % MOD))) % MOD : ℤ) : ZMod Pn) = ((Q.x : ZMod Pn) - (P.x : ZMod Pn)) * (((Q.y : ZMod Pn) - (P.y : ZMod Pn)) ^ 2 - ((Q.x : ZMod Pn) - (P.x : ZMod Pn)) ^ 3 - 2 * (((Q.x : ZMod Pn) - (P.x : ZMod Pn)) ^ 2 * (P.x : ZMod Pn))) := by
    rw [cast_emod, Int.cast_mul, cV, ca2]
  have cy0 : ((sub (((((sub Q.x P.x) * (sub Q.x P.x)) % MOD) * P.x) % MOD) (sub (sub (((sub Q.y P.y) * (sub Q.y P.y)) % MOD) (((((sub Q.x P.x) * (sub Q.x P.x)) % MOD) * (sub Q.x P.x)) % MOD)) (((2 : ℤ) * (((((sub Q.x P.x) * (sub Q.x P.x)) % MOD) * P.x) % MOD)) % MOD)) : ℤ) : ZMod Pn) = ((Q.x : ZMod Pn) - (P.x : ZMod Pn)) ^ 2 * (P.x : ZMod Pn) - (((Q.y : ZMod Pn) - (P.y : ZMod Pn)) ^ 2 - ((Q.x : ZMod Pn) - (P.x : ZMod Pn)) ^ 3 - 2 * (((Q.x : ZMod Pn) - (P.x : ZMod Pn)) ^ 2 * (P.x : ZMod Pn))) := by
    rw [cast_sub, cVV2, ca2]
  have cy1 : ((((sub (((((sub Q.x P.x) * (sub Q.x P.x)) % MOD) * P.x) % MOD) (sub (sub (((sub Q.y P.y) * (sub Q.y P.y)) % MOD) (((((sub Q.x P.x) * (sub Q.x P.x)) % MOD) * (sub Q.x P.x)) % MOD)) (((2 : ℤ) * (((((sub Q.x P.x) * (sub Q.x P.x)) % MOD) * P.x) % MOD)) % MOD))) * (sub Q.y P.y)) % MOD : ℤ) : ZMod Pn) = (((Q.x : ZMod Pn) - (P.x : ZMod Pn)) ^ 2 * (P.x : ZMod Pn) - (((Q.y : ZMod Pn) - (P.y : ZMod Pn)) ^ 2 - ((Q.x : ZMod Pn) - (P.x : ZMod Pn)) ^ 3 - 2 * (((Q.x : ZMod Pn) - (P.x : ZMod Pn)) ^ 2 * (P.x : ZMod Pn)))) * ((Q.y : ZMod Pn) - (P.y : ZMod Pn)) := by
    rw [cast_emod, Int.cast_mul, cy0, cU]
  have cvcu2 : ((((((((sub Q.x P.x) * (sub Q.x P.x)) % MOD) * (sub Q.x P.x)) % MOD) * P.y) % MOD : ℤ) : ZMod Pn) = ((Q.x : ZMod Pn) - (P.x : ZMod Pn)) ^ 3 * (P.y : ZMod Pn) := by
    rw [cast_emod, Int.cast_mul, cV3]
  have cY : ((sub (((sub (((((sub Q.x P.x) * (sub Q.x P.x)) % MOD) * P.x) % MOD) (sub (sub (((sub Q.y P.y) * (sub Q.y P.y)) % MOD) (((((sub Q.x P.x) * (sub Q.x P.x)) % MOD) * (sub Q.x P.x)) % MOD)) (((2 : ℤ) * (((((sub Q.x P.x) * (sub Q.x P.x)) % MOD) * P.x) % MOD)) % MOD))) * (sub Q.y P.y)) % MOD) (((((((sub Q.x P.x) * (sub Q.x P.x)) % MOD) * (sub Q.x P.x)) % MOD) * P.y) % MOD) : ℤ) : ZMod Pn) = (((Q.x : ZMod Pn) - (P.x : ZMod Pn)) ^ 2 * (P.x : ZMod Pn) - (((Q.y : ZMod Pn) - (P.y : ZMod Pn)) ^ 2 - ((Q.x : ZMod Pn) - (P.x : ZMod Pn)) ^ 3 - 2 * (((Q.x : ZMod Pn) - (P.x : ZMod Pn)) ^ 2 * (P.x : ZMod Pn)))) * ((Q.y : ZMod Pn) - (P.y : ZMod Pn)) - ((Q.x : ZMod Pn) - (P.x : ZMod Pn)) ^ 3 * (P.y : ZMod Pn) := by
    rw [cast_sub, cy1, cvcu2]
  refine ⟨⟨((sub Q.x P.x) * (sub (sub (((sub Q.y P.y) * (sub Q.y P.y)) % MOD) (((((sub Q.x P.x) * (sub Q.x P.x)) % MOD) * (sub Q.x P.x)) % MOD)) (((2 : ℤ) * (((((sub Q.x P.x) * (sub Q.x P.x)) % MOD) * P.x) % MOD)) % MOD))) % MOD, sub (((sub (((((sub Q.x P.x) * (sub Q.x P.x)) % MOD) * P.x) % MOD) (sub (sub (((sub Q.y P.y) * (sub Q.y P.y)) % MOD) (((((sub Q.x P.x) * (sub Q.x P.x)) % MOD) * (sub Q.x P.x)) % MOD)) (((2 : ℤ) * (((((sub Q.x P.x) * (sub Q.x P.x)) % MOD) * P.x) % MOD)) % MOD))) * (sub Q.y P.y)) % MOD) (((((((sub Q.x P.x) * (sub Q.x P.x)) % MOD) * (sub Q.x P.x)) % MOD) * P.y) % MOD), ((((sub Q.x P.x) * (sub Q.x P.x)) % MOD) * (sub Q.x P.x)) % MOD⟩, ?_, ⟨hXr.1, hXr.2, hYr.1, hYr.2, hV3r.1, hV3r.2⟩, cX, cY, cV3⟩
  unfold Projective.add Affine.as_projective
  dsimp only
  simp only [e_u1, e_u2, e_v1, e_v2, e_w, e_vsqr, e_vcube, e_vv2, e_usqr, e_a0,
    e_m2, e_x, e_y1, e_vcu2, e_z, bind_ok]
  rfl

end Ecc


namespace Ecc

/-- Symbolic execution of the chord branch of `Affine.add` for reduced points
with distinct `x` coordinates: the sum succeeds, is reduced, and modulo `p`
its coordinates satisfy the chord-slope equations. -/
theorem affineAdd_chord (P Q : Affine) (hP : inRange P) (hQ : inRange Q)
    (hx : P.x ≠ Q.x) :
    ∃ (S : Affine) (m : ℤ),
      Affine.add (some P) (some Q) = .ok (some S) ∧ inRange S ∧
      ((Q.x : ZMod Pn) - (P.x : ZMod Pn)) * (m : ZMod Pn) = ((Q.y : ZMod Pn) - (P.y : ZMod Pn)) ∧
      (S.x : ZMod Pn) = (m : ZMod Pn) ^ 2 - (P.x : ZMod Pn) - (Q.x : ZMod Pn) ∧
      (S.y : ZMod Pn) = (m : ZMod Pn) * ((P.x : ZMod Pn) - (S.x : ZMod Pn)) - (P.y : ZMod Pn) := by
  obtain ⟨hPx0, hPx1, hPy0, hPy1⟩ := hP
  obtain ⟨hQx0, hQx1, hQy0, hQy1⟩ := hQ
  have hUr := sub_range Q.y P.y hQy0 hQy1 hPy0 hPy1
  have hVr := sub_range Q.x P.x hQx0 hQx1 hPx0 hPx1
  have hVpos : 0 < sub Q.x P.x := sub_pos_of_ne Q.x P.x hQx0 hQx1 hPx0 hPx1 (Ne.symm hx)
  obtain ⟨ib, hib, hib0, hib1, hibinv, hdiv⟩ :=
    div_ok (sub Q.y P.y) (sub Q.x P.x) hUr.1 hUr.2 hVpos hVr.2
  have hm0r := emod_range ((sub Q.y P.y) * ib)
  have hx0r := emod_range ((((sub Q.y P.y) * ib) % MOD) * (((sub Q.y P.y) * ib) % MOD))
  have hx1r := sub_range (((((sub Q.y P.y) * ib) % MOD) * (((sub Q.y P.y) * ib) % MOD)) % MOD) P.x hx0r.1 hx0r.2 hPx0 hPx1
  have hx2r := sub_range (sub (((((sub Q.y P.y) * ib) % MOD) * (((sub Q.y P.y) * ib) % MOD)) % MOD) P.x) Q.x hx1r.1 hx1r.2 hQx0 hQx1
  have hsPx2r := sub_range P.x (sub (sub (((((sub Q.y P.y) * ib) % MOD) * (((sub Q.y P.y) * ib) % MOD)) % MOD) P.x) Q.x) hPx0 hPx1 hx2r.1 hx2r.2
  have hy0r := emod_range ((((sub Q.y P.y) * ib) % MOD) * (sub P.x (sub (sub (((((sub Q.y P.y) * ib) % MOD) * (((sub Q.y P.y) * ib) % MOD)) % MOD) P.x) Q.x)))
  have hy1r := sub_range (((((sub Q.y P.y) * ib) % MOD) * (sub P.x (sub (sub (((((sub Q.y P.y) * ib) % MOD) * (((sub Q.y P.y) * ib) % MOD)) % MOD) P.x) Q.x))) % MOD) P.y hy0r.1 hy0r.2 hPy0 hPy1
  have hsneg : (⟨P.x, (-P.y) % MOD⟩ : Affine) ≠ Q := by
    intro h
    have hxx := congrArg Affine.x h
    exact hx hxx
  have hPQ : P ≠ Q := by
    intro h
    exact hx (congrArg Affine.x h)
  have e_sqr : sqr (((sub Q.y P.y) * ib) % MOD) = .ok (((((sub Q.y P.y) * ib) % MOD) * (((sub Q.y P.y) * ib) % MOD)) % MOD) := sqr_ok (((sub Q.y P.y) * ib) % MOD) hm0r.1 hm0r.2
  have e_y0 : mul (((sub Q.y P.y) * ib) % MOD) (sub P.x (sub (sub (((((sub Q.y P.y) * ib) % MOD) * (((sub Q.y P.y) * ib) % MOD)) % MOD) P.x) Q.x)) = .ok (((((sub Q.y P.y) * ib) % MOD) * (sub P.x (sub (sub (((((sub Q.y P.y) * ib) % MOD) * (((sub Q.y P.y) * ib) % MOD)) % MOD) P.x) Q.x))) % MOD) :=
    mul_ok (((sub Q.y P.y) * ib) % MOD) (sub P.x (sub (sub (((((sub Q.y P.y) * ib) % MOD) * (((sub Q.y P.y) * ib) % MOD)) % MOD) P.x) Q.x)) hm0r.1 hm0r.2 hsPx2r.1 hsPx2r.2
  have cU : ((sub Q.y P.y : ℤ) : ZMod Pn) = ((Q.y : ZMod Pn) - (P.y : ZMod Pn)) := cast_sub Q.y P.y
  have cV : ((sub Q.x P.x : ℤ) : ZMod Pn) = ((Q.x : ZMod Pn) - (P.x : ZMod Pn)) := cast_sub Q.x P.x
  have cibinv : ((Q.x : ZMod Pn) - (P.x : ZMod Pn)) * (ib : ZMod Pn) = 1 := by
    have hc : (((sub Q.x P.x) * ib % MOD : ℤ) : ZMod Pn) = ((1 : ℤ) : ZMod Pn) := by
      rw [hibinv]
    rw [cast_emod, Int.cast_mul, cV] at hc
    push_cast at hc
    exact hc
  have cm0 : ((((sub Q.y P.y) * ib) % MOD : ℤ) : ZMod Pn) = ((Q.y : ZMod Pn) - (P.y : ZMod Pn)) * (ib : ZMod Pn) := by
    rw [cast_emod, Int.cast_mul, cU]
  have cx0 : ((((((sub Q.y P.y) * ib) % MOD) * (((sub Q.y P.y) * ib) % MOD)) % MOD : ℤ) : ZMod Pn) = ((((sub Q.y P.y) * ib) % MOD : ℤ) : ZMod Pn) ^ 2 := by
    rw [cast_emod, Int.cast_mul]
    ring
  have cx2 : ((sub (sub (((((sub Q.y P.y) * ib) % MOD) * (((sub Q.y P.y) * ib) % MOD)) % MOD) P.x) Q.x : ℤ) : ZMod Pn)
      = ((((sub Q.y P.y) * ib) % MOD : ℤ) : ZMod Pn) ^ 2 - (P.x : ZMod Pn) - (Q.x : ZMod Pn) := by
    rw [cast_sub, cast_sub, cx0]
  have cy1 : ((sub (((((sub Q.y P.y) * ib) % MOD) * (sub P.x (sub (sub (((((sub Q.y P.y) * ib) % MOD) * (((sub Q.y P.y) * ib) % MOD)) % MOD) P.x) Q.x))) % MOD) P.y : ℤ) : ZMod Pn)
      = ((((sub Q.y P.y) * ib) % MOD : ℤ) : ZMod Pn) * ((P.x : ZMod Pn) - ((sub (sub (((((sub Q.y P.y) * ib) % MOD) * (((sub Q.y P.y) * ib) % MOD)) % MOD) P.x) Q.x : ℤ) : ZMod Pn)) - (P.y : ZMod Pn) := by
    rw [cast_sub, cast_emod, Int.cast_mul, cast_sub]
  refine ⟨⟨sub (sub (((((sub Q.y P.y) * ib) % MOD) * (((sub Q.y P.y) * ib) % MOD)) % MOD) P.x) Q.x, sub (((((sub Q.y P.y) * ib) % MOD) * (sub P.x (sub (sub (((((sub Q.y P.y) * ib) % MOD) * (((sub Q.y P.y) * ib) % MOD)) % MOD) P.x) Q.x))) % MOD) P.y⟩, ((sub Q.y P.y) * ib) % MOD, ?_, ⟨hx2r.1, hx2r.2, hy1r.1, hy1r.2⟩, ?_, cx2, cy1⟩
  · unfold Affine.add
    dsimp only
    rw [affine_neg_ok P hPy0 hPy1, bind_ok, if_neg hsneg, if_pos hPQ]
    rw [hdiv, bind_ok, e_sqr, bind_ok, e_y0, bind_ok]
    rfl
  · rw [cm0]
    calc ((Q.x : ZMod Pn) - (P.x : ZMod Pn)) * (((Q.y : ZMod Pn) - (P.y : ZMod Pn)) * (ib : ZMod Pn))
        = ((Q.y : ZMod Pn) - (P.y : ZMod Pn)) * (((Q.x : ZMod Pn) - (P.x : ZMod Pn)) * (ib : ZMod Pn)) := by ring
      _ = ((Q.y : ZMod Pn) - (P.y : ZMod Pn)) := by rw [cibinv, mul_one]

end Ecc


namespace Ecc

theorem onCurve_cast (P : Affine) (h : onCurve P) :
    (P.y : ZMod Pn) ^ 2
      = (P.x : ZMod Pn) ^ 3 + (A : ZMod Pn) * (P.x : ZMod Pn) + (B : ZMod Pn) := by
  have hc := congrArg (fun n : ℤ => (n : ZMod Pn)) h
  simp only at hc
  rw [cast_emod, cast_emod] at hc
  push_cast at hc
  exact hc

/-- C1: for all affine points `P ≠ Q` on the curve (neither the identity)
with reduced coordinates, lifting to projective, adding with the projective
formula, and converting back to affine agrees exactly with the affine
`add(P, Q)`. -/
theorem claim_C1 (P Q : Affine) (hP : inRange P) (hQ : inRange Q)
    (hcP : onCurve P) (hcQ : onCurve Q) (hne : P ≠ Q) :
    ∃ (R : Projective) (S : Option Affine),
      Projective.add P.as_projective Q.as_projective = .ok R ∧
      Affine.add (some P) (some Q) = .ok S ∧
      R.as_affine = .ok S := by
  obtain ⟨hPx0, hPx1, hPy0, hPy1⟩ := hP
  obtain ⟨hQx0, hQx1, hQy0, hQy1⟩ := hQ
  by_cases hx : P.x = Q.x
  · -- same x-coordinate: on the curve this forces Q = -P, both sides identity
    have hcP' := onCurve_cast P hcP
    have hcQ' := onCurve_cast Q hcQ
    have hxc : (Q.x : ZMod Pn) = (P.x : ZMod Pn) := by rw [hx]
    have hyy : (Q.y : ZMod Pn) ^ 2 = (P.y : ZMod Pn) ^ 2 := by
      rw [hcQ', hcP', hxc]
    have hfact : ((Q.y : ZMod Pn) - (P.y : ZMod Pn))
        * ((Q.y : ZMod Pn) + (P.y : ZMod Pn)) = 0 := by
      linear_combination hyy
    rcases mul_eq_zero.mp hfact with hcase | hcase
    · exfalso
      have hyQP : (Q.y : ZMod Pn) = (P.y : ZMod Pn) := by linear_combination hcase
      have hyint : Q.y = P.y := cast_inj Q.y P.y hQy0 hQy1 hPy0 hPy1 hyQP
      apply hne
      have hPeta : P = ⟨P.x, P.y⟩ := rfl
      have hQeta : Q = ⟨Q.x, Q.y⟩ := rfl
      rw [hPeta, hQeta, hx, hyint]
    · have hyQneg : (Q.y : ZMod Pn) = -(P.y : ZMod Pn) := by linear_combination hcase
      have hnegrange := emod_range (-P.y)
      have hyint : (-P.y) % MOD = Q.y := by
        apply cast_inj _ _ hnegrange.1 hnegrange.2 hQy0 hQy1
        rw [cast_emod]
        push_cast
        rw [hyQneg]
      have hsneg : (⟨P.x, (-P.y) % MOD⟩ : Affine) = Q := by
        have hQeta : Q = ⟨Q.x, Q.y⟩ := rfl
        rw [hQeta, ← hx, hyint]
      have hadd : Affine.add (some P) (some Q) = .ok none := by
        unfold Affine.add
        dsimp only
        rw [affine_neg_ok P hPy0 hPy1, bind_ok, if_pos hsneg]
        rfl
      obtain ⟨R, hR, hRr, hRx, hRy, hRz⟩ := projAdd_z1 P Q
        ⟨hPx0, hPx1, hPy0, hPy1⟩ ⟨hQx0, hQx1, hQy0, hQy1⟩
      have hVc0 : ((Q.x : ZMod Pn) - (P.x : ZMod Pn)) = 0 := by
        rw [hxc]
        ring
      have hRz0 : R.z = 0 := by
        apply cast_inj R.z 0 hRr.2.2.2.2.1 hRr.2.2.2.2.2 (le_refl (0 : ℤ)) MOD_pos
        rw [hRz, hVc0]
        norm_num
      refine ⟨R, none, hR, hadd, ?_⟩
      unfold Projective.as_affine
      rw [if_pos hRz0]
  · -- distinct x-coordinates: chord case on both sides
    obtain ⟨S, m, hS, hSr, hm, hSx, hSy⟩ := affineAdd_chord P Q
      ⟨hPx0, hPx1, hPy0, hPy1⟩ ⟨hQx0, hQx1, hQy0, hQy1⟩ hx
    obtain ⟨R, hR, hRr, hRx, hRy, hRz⟩ := projAdd_z1 P Q
      ⟨hPx0, hPx1, hPy0, hPy1⟩ ⟨hQx0, hQx1, hQy0, hQy1⟩
    refine ⟨R, some S, hR, hS, ?_⟩
    have hVcne : ((Q.x : ZMod Pn) - (P.x : ZMod Pn)) ≠ 0 :=
      sub_ne_zero.mpr
        (Ne.symm (cast_ne_of_range_ne P.x Q.x hPx0 hPx1 hQx0 hQx1 hx))
    obtain ⟨hRx0, hRx1, hRy0, hRy1, hRz0r, hRz1⟩ := hRr
    have hRz0 : R.z ≠ 0 := by
      intro h0
      have hc0 : (R.z : ZMod Pn) = 0 := by
        rw [h0]
        exact Int.cast_zero
      rw [hRz] at hc0
      exact hVcne ((pow_eq_zero_iff (by norm_num : (3 : ℕ) ≠ 0)).mp hc0)
    have hRzpos : 0 < R.z := lt_of_le_of_ne hRz0r (Ne.symm hRz0)
    obtain ⟨iz, hiz, hiz0, hiz1, hizinv⟩ := inverse_cast R.z hRzpos hRz1
    have hchord := zmod_chord (P.x : ZMod Pn) (P.y : ZMod Pn) (Q.x : ZMod Pn)
      (Q.y : ZMod Pn) (m : ZMod Pn) (iz : ZMod Pn) hVcne hm
      (by rw [← hRz]; exact hizinv)
    have hXc : (((R.x * iz) % MOD : ℤ) : ZMod Pn) = (S.x : ZMod Pn) := by
      rw [cast_emod, Int.cast_mul, hRx, hSx]
      exact hchord.1
    have hYc : (((R.y * iz) % MOD : ℤ) : ZMod Pn) = (S.y : ZMod Pn) := by
      rw [cast_emod, Int.cast_mul, hRy, hSy, hSx]
      exact hchord.2
    have hx2 : (R.x * iz) % MOD = S.x :=
      cast_inj _ _ (emod_range _).1 (emod_range _).2 hSr.1 hSr.2.1 hXc
    have hy2 : (R.y * iz) % MOD = S.y :=
      cast_inj _ _ (emod_range _).1 (emod_range _).2 hSr.2.2.1 hSr.2.2.2 hYc
    unfold Projective.as_affine
    rw [if_neg hRz0, hiz, bind_ok,
      mul_ok R.x iz hRx0 hRx1 (le_of_lt hiz0) hiz1, bind_ok,
      mul_ok R.y iz hRy0 hRy1 (le_of_lt hiz0) hiz1, bind_ok]
    have hSS : (⟨(R.x * iz) % MOD, (R.y * iz) % MOD⟩ : Affine) = S := by
      rw [hx2, hy2]
    rw [hSS]
    rfl

theorem claim_C1_witness :
    inRange BASE_POINT ∧ inRange K_2 ∧ onCurve BASE_POINT ∧ onCurve K_2 ∧
      BASE_POINT ≠ K_2 ∧
      ∃ (R : Projective) (S : Option Affine),
        Projective.add BASE_POINT.as_projective K_2.as_projective = .ok R ∧
        Affine.add (some BASE_POINT) (some K_2) = .ok S ∧
        R.as_affine = .ok S :=
  ⟨by decide, by decide, by decide, by decide, by decide,
    claim_C1 BASE_POINT K_2 (by decide) (by decide) (by decide) (by decide)
      (by decide)⟩

end Ecc
